import Mathlib

/-!
Verification of the trading-dashboard computational core.

This file gives a shallow embedding, over `ℚ`, of the numeric pipeline in
`technical-indicators.js`, `pattern-recognition.js`, `trade-setup-detector.js`
and `risk-calculator.js`, and proves (or refutes) the frozen claims about it.

Embedding conventions:
* JavaScript numbers are modelled by `ℚ`.  All the inputs exercised by the
  claims are rational, and the source performs only field arithmetic except
  for `Math.sqrt` (threaded through as an explicit function parameter) and
  divisions whose denominator may be zero.  Division in `ℚ` is total with
  `x / 0 = 0`, whereas JS yields `Infinity`/`NaN`; every place where a
  theorem could depend on that difference either carries an explicit
  nonzero-denominator condition or models the result as an `Option ℚ`
  (`jdiv`, used by `calculateRiskReward` where the spec itself calls the
  zero-risk case invalid).
* A possibly-`undefined` numeric field is `Option ℚ`; JS comparison and
  truthiness semantics on such fields are captured by `oLt`, `oGt`, `truthy`
  and `jsOr` (JS `x || y`, where both `undefined` and `0` are falsy).
* `Date.now()` is threaded through as an explicit `now : ℤ` parameter.
-/

namespace Dashboard

/-- JS `x || y` where `x` is a possibly-undefined number: `undefined` and `0`
are falsy, any other (rational) number is truthy. -/
def jsOr (x : Option ℚ) (y : ℚ) : ℚ :=
  match x with
  | none => y
  | some v => if v = 0 then y else v

/-- JS `x || y` on plain numbers (`0` is falsy). -/
def qOr (x y : ℚ) : ℚ := if x = 0 then y else x

/-- JS `x < c` where `x` may be `undefined` (comparisons against `undefined`
are false). -/
def oLt (x : Option ℚ) (c : ℚ) : Bool :=
  match x with
  | none => false
  | some v => decide (v < c)

/-- JS `x > c` where `x` may be `undefined`. -/
def oGt (x : Option ℚ) (c : ℚ) : Bool :=
  match x with
  | none => false
  | some v => decide (c < v)

/-- JS truthiness of a possibly-undefined number. -/
def truthy (x : Option ℚ) : Bool :=
  match x with
  | none => false
  | some v => decide (v ≠ 0)

/-- JS division embedded as `Option`: `none` stands for the non-finite
result (`Infinity` or `NaN`) of dividing by zero. -/
def jdiv (a b : ℚ) : Option ℚ := if b = 0 then none else some (a / b)

/-! ## Data model -/

/-- One OHLCV candle (`{timestamp, open, high, low, close, volume}`).
The JS field `open` is a Lean keyword and is called `opn` here. -/
structure Candle where
  timestamp : ℤ
  opn : ℚ
  high : ℚ
  low : ℚ
  close : ℚ
  volume : ℚ
deriving Repr, DecidableEq

/-- One per-candle indicator snapshot, as built by
`TechnicalIndicators.calculateAll`.  Optional fields are set only once the
corresponding lookback is satisfied. -/
structure IndicatorSnapshot where
  timestamp : ℤ := 0
  price : ℚ := 0
  ema9 : Option ℚ := none
  ema20 : Option ℚ := none
  ema50 : Option ℚ := none
  sma20 : Option ℚ := none
  sma50 : Option ℚ := none
  sma200 : Option ℚ := none
  rsi : Option ℚ := none
  macd : Option ℚ := none
  macdSignal : Option ℚ := none
  macdHistogram : Option ℚ := none
  bollingerUpper : Option ℚ := none
  bollingerMiddle : Option ℚ := none
  bollingerLower : Option ℚ := none
  bollingerBand : Option ℚ := none
  stochK : Option ℚ := none
  stochD : Option ℚ := none
  adx : Option ℚ := none
  atr : Option ℚ := none
  volumeRatio : Option ℚ := none
  volumeMA : Option ℚ := none
  obv : Option ℚ := none
deriving Repr, DecidableEq

/-- The all-absent snapshot (fresh `{}`-like record). -/
def emptySnapshot : IndicatorSnapshot := {}

/-- A detected chart/candlestick pattern, as consumed by the setup
detector.  `level` and `target` are optional price levels. -/
structure Pattern where
  type : String
  direction : String
  confidence : ℚ
  level : Option ℚ := none
  target : Option ℚ := none
  timestamp : ℤ := 0
deriving Repr, DecidableEq

/-- An external directional forecast. -/
structure Prediction where
  price : ℚ := 0
  changePercent : ℚ := 0
  confidence : ℚ
  direction : String
deriving Repr, DecidableEq

/-- Market-regime classification (the setup detector reads only `regime`). -/
structure Regime where
  regime : String
deriving Repr, DecidableEq

/-- A trade setup as emitted by the five detector strategies. -/
structure TradeSetup where
  type : String
  direction : String
  confidence : ℚ
  entry : ℚ
  stopLoss : ℚ
  takeProfit : ℚ
  riskReward : ℚ
  signals : List String
  pattern : Option String := none
  timestamp : ℤ
deriving Repr, DecidableEq

/-! ## Risk calculator (`risk-calculator.js`) -/

/-- Result of `calculateRiskReward`.  The `ratio`/percent fields are
`Option ℚ` because JS produces a non-finite value when the corresponding
denominator is zero (`risk = 0`, i.e. `entry == stopLoss`, or `entry = 0`). -/
structure RiskReward where
  risk : ℚ
  reward : ℚ
  ratio : Option ℚ
  riskPercent : Option ℚ
  rewardPercent : Option ℚ
deriving Repr, DecidableEq

/-- `RiskCalculator.calculateRiskReward(entry, stopLoss, takeProfit)`. -/
def calculateRiskReward (entry stopLoss takeProfit : ℚ) : RiskReward :=
  let risk := |entry - stopLoss|
  let reward := |takeProfit - entry|
  { risk := risk
    reward := reward
    ratio := jdiv reward risk
    riskPercent := (jdiv risk entry).map (fun q => q * 100)
    rewardPercent := (jdiv reward entry).map (fun q => q * 100) }

/-- Result of `calculateKellyCriterion`. -/
structure KellyResult where
  fullKelly : ℚ
  halfKelly : ℚ
  recommended : ℚ
deriving Repr, DecidableEq

/-- `RiskCalculator.calculateKellyCriterion(winRate, avgWin, avgLoss)`.
The claims evaluate it only at nonzero `avgWin`/`avgLoss`, where `ℚ`
division agrees with JS. -/
def calculateKellyCriterion (winRate avgWin avgLoss : ℚ) : KellyResult :=
  let lossRate := 1 - winRate
  let kelly := winRate / avgLoss - lossRate / avgWin
  let fractionalKelly := kelly * (1/2)
  { fullKelly := max 0 (min 1 kelly) * 100
    halfKelly := max 0 (min 1 fractionalKelly) * 100
    recommended := max 0 (min 1 fractionalKelly) * 100 }

/-- The position-sizing figures consumed by `getTradeRecommendation` and
`calculateTradeScore` (`position.stopPercent`, `position.leverage`); the
other fields of the JS position object are not read by the embedded
functions. -/
structure Position where
  stopPercent : ℚ
  leverage : ℚ
deriving Repr, DecidableEq

/-- `RiskCalculator.calculateTradeScore(setup, rr, position)`.
In JS a zero-risk trade has `rr.ratio = Infinity` and
`Math.min(30, Infinity) = 30`; the `none` branch mirrors that (the doubly
degenerate `0/0` case is outside this embedding, and no claim exercises
it). -/
def calculateTradeScore (setup : TradeSetup) (rr : RiskReward) (position : Position) : ℚ :=
  let s1 := setup.confidence * 40
  let s2 := s1 + (match rr.ratio with
    | some r => min 30 (r / 3 * 30)
    | none => 30)
  let s3 := s2 + max 0 (20 - position.stopPercent * 5)
  let s4 := s3 + max 0 (10 - position.leverage)
  min 100 (max 0 s4)

/-- Result of `getTradeRecommendation`. -/
structure Recommendation where
  action : String
  issues : List String
  score : ℚ
deriving Repr, DecidableEq

/-- `RiskCalculator.getTradeRecommendation(setup, rr, position)`: the four
checks run in source order, each overwriting `recommendation`; a final
check resets to `TAKE_TRADE` when no issue was recorded.  JS compares
`rr.ratio < 1.5`, which is false for `Infinity`/`NaN` — captured by `oLt`. -/
def getTradeRecommendation (setup : TradeSetup) (rr : RiskReward) (position : Position) :
    Recommendation :=
  let st0 : List String × String := ([], "TAKE_TRADE")
  let st1 := if oLt rr.ratio (3/2) then
      (st0.1 ++ ["Risk/Reward below 1.5:1"], "REDUCE_SIZE") else st0
  let st2 := if 3 < position.stopPercent then
      (st1.1 ++ ["Stop loss too wide (>3%)"], "REDUCE_SIZE") else st1
  let st3 := if 10 < position.leverage then
      (st2.1 ++ ["Excessive leverage required"], "SKIP_TRADE") else st2
  let st4 := if setup.confidence < 13/20 then
      (st3.1 ++ ["Low setup confidence"], "WAIT") else st3
  let action := if st4.1.length = 0 then "TAKE_TRADE" else st4.2
  { action := action
    issues := st4.1
    score := calculateTradeScore setup rr position }

/-! ## Theorems: risk calculator claims -/

/-- A concrete setup used by the numeric claims; only `confidence` matters
to the functions under test. -/
def setupC6 : TradeSetup :=
  { type := "TREND_FOLLOWING", direction := "LONG", confidence := 41/50
    entry := 43000, stopLoss := 42600, takeProfit := 44200
    riskReward := 3, signals := [], timestamp := 0 }

/-- A concrete low-confidence setup for the recommendation counterexample. -/
def setupC7 : TradeSetup :=
  { type := "TREND_FOLLOWING", direction := "LONG", confidence := 1/2
    entry := 100, stopLoss := 99, takeProfit := 104
    riskReward := 4, signals := [], timestamp := 0 }

/-- C9: `calculateRiskReward` returns `ratio = |takeProfit − entry| /
|entry − stopLoss|` whenever `entry ≠ stopLoss`, and a non-finite
(rejected) ratio when `entry = stopLoss`. -/
theorem riskReward_ratio_spec (entry stopLoss takeProfit : ℚ) :
    (entry ≠ stopLoss →
      (calculateRiskReward entry stopLoss takeProfit).ratio
        = some (|takeProfit - entry| / |entry - stopLoss|)) ∧
    (entry = stopLoss → (calculateRiskReward entry stopLoss takeProfit).ratio = none) := by
  constructor
  · intro hne
    have h0 : |entry - stopLoss| ≠ 0 := by
      simpa [sub_eq_zero] using hne
    simp [calculateRiskReward, jdiv, h0]
  · intro heq
    simp [calculateRiskReward, jdiv, heq]

/-- Witness for C9 at `entry = 100`, `stopLoss = 98`, `takeProfit = 104`
and at the degenerate `entry = stopLoss = 100`. -/
theorem riskReward_ratio_spec_witness :
    (calculateRiskReward 100 98 104).ratio = some 2 ∧
    (calculateRiskReward 100 100 104).ratio = none := by
  constructor
  · have h := (riskReward_ratio_spec 100 98 104).1 (by norm_num)
    rw [h]
    norm_num
  · exact (riskReward_ratio_spec 100 100 104).2 rfl

/-- C5 counterexample: at `winRate = 0.55`, `avgWin = 0.025`,
`avgLoss = 0.01` the implemented formula gives a raw Kelly of `37`, which
clamps to `1`, so `fullKelly = 100` — not within one percentage point of
`15` — and `halfKelly = 100` (not `7.5`, and not `0.5 × fullKelly`). -/
theorem kelly_worked_example_fails :
    (calculateKellyCriterion (11/20) (1/40) (1/100)).fullKelly = 100 ∧
    (calculateKellyCriterion (11/20) (1/40) (1/100)).halfKelly = 100 ∧
    ¬ |(calculateKellyCriterion (11/20) (1/40) (1/100)).fullKelly - 15| ≤ 1 ∧
    ¬ |(calculateKellyCriterion (11/20) (1/40) (1/100)).halfKelly - 15/2| ≤ 1 := by
  norm_num [calculateKellyCriterion, abs_le]

/-- C5 amended: `calculateKellyCriterion` computes
`winRate/avgLoss − (1−winRate)/avgWin` clamped to `[0,1]` and scaled by
`100`, with `halfKelly` the clamp of half the raw Kelly; at the documented
inputs the raw Kelly is `37`, so both `fullKelly` and `halfKelly` clamp to
`100`. -/
theorem kelly_amended :
    (calculateKellyCriterion (11/20) (1/40) (1/100)) =
      { fullKelly := 100, halfKelly := 100, recommended := 100 } ∧
    (11/20 : ℚ) / (1/100) - (1 - 11/20) / (1/40) = 37 := by
  constructor
  · show KellyResult.mk _ _ _ = _
    norm_num [calculateKellyCriterion]
  · norm_num

/-- C6 counterexample: with `confidence = 0.82`, `ratio = 3.0`,
`stopPercent = 0.93`, `leverage = 11`, the component formula yields
`32.8 + 30 + 15.35 + 0 = 78.15`, not approximately `91`. -/
theorem tradeScore_worked_example_fails :
    calculateTradeScore setupC6
        { risk := 400, reward := 1200, ratio := some 3
          riskPercent := none, rewardPercent := none }
        { stopPercent := 93/100, leverage := 11 } = 1563/20 ∧
    ¬ |(1563/20 : ℚ) - 91| ≤ 5 := by
  constructor
  · norm_num [calculateTradeScore, setupC6]
  · norm_num [abs_le]

/-- C6 amended: at those inputs `calculateTradeScore` returns exactly
`78.15`, per the component formula `40·confidence + min(30,(ratio/3)·30) +
max(0, 20 − stopPercent·5) + max(0, 10 − leverage)` clamped to `[0,100]`. -/
theorem tradeScore_amended :
    calculateTradeScore setupC6
        { risk := 400, reward := 1200, ratio := some 3
          riskPercent := none, rewardPercent := none }
        { stopPercent := 93/100, leverage := 11 }
      = min 100 (max 0 ((41/50 : ℚ) * 40 + min 30 (3/3*30) + max 0 (20 - (93/100)*5)
          + max 0 (10 - 11))) := by
  norm_num [calculateTradeScore, setupC6]

/-- C7 counterexample: with `leverage = 11 > 10` but `confidence = 0.5 <
0.65`, the later confidence check overwrites the recommendation, so the
action is `WAIT`, not `SKIP_TRADE` — the leverage check is not terminal. -/
theorem recommendation_skip_not_terminal :
    (getTradeRecommendation setupC7
        { risk := 1, reward := 4, ratio := some 4
          riskPercent := none, rewardPercent := none }
        { stopPercent := 1, leverage := 11 }).action = "WAIT" := by
  norm_num [getTradeRecommendation, setupC7, oLt]

/-- C7 amended: `leverage > 10` yields `SKIP_TRADE` only when no later
check fires, i.e. whenever `setup.confidence ≥ 0.65`; the checks run in
source order and the confidence check (`WAIT`) overrides the leverage
check (`SKIP_TRADE`). -/
theorem recommendation_skip_when_confident (setup : TradeSetup) (rr : RiskReward)
    (position : Position) (hlev : 10 < position.leverage)
    (hconf : 13/20 ≤ setup.confidence) :
    (getTradeRecommendation setup rr position).action = "SKIP_TRADE" := by
  have hc : ¬ setup.confidence < 13/20 := not_lt.mpr hconf
  unfold getTradeRecommendation
  simp only [hlev, hc, if_true, if_false, if_pos, if_neg, not_false_iff]
  rcases h1 : oLt rr.ratio (3/2) <;>
    rcases h2 : decide (3 < position.stopPercent) <;>
      simp_all [List.length_append]

/-- Witness for C7 amended at a concrete high-confidence, high-leverage
input. -/
theorem recommendation_skip_when_confident_witness :
    (getTradeRecommendation setupC6
        { risk := 400, reward := 1200, ratio := some 3
          riskPercent := none, rewardPercent := none }
        { stopPercent := 93/100, leverage := 11 }).action = "SKIP_TRADE" :=
  recommendation_skip_when_confident setupC6
    { risk := 400, reward := 1200, ratio := some 3
      riskPercent := none, rewardPercent := none }
    { stopPercent := 93/100, leverage := 11 }
    (by norm_num) (by norm_num [setupC6])

/-! ## Technical indicators (`technical-indicators.js`) -/

/-- `TechnicalIndicators.SMA(data)`: arithmetic mean.  The JS `0/0 = NaN`
on an empty array never arises at the call sites inside `calculateAll`
(all windows are nonempty); in `ℚ` the empty case evaluates to `0`. -/
def SMA (data : List ℚ) : ℚ := data.sum / (data.length : ℚ)

/-- `TechnicalIndicators.EMA(data, period)`: seed with the mean of the
first `period` values, then fold the EMA recurrence over the rest. -/
def EMA (data : List ℚ) (period : ℕ) : ℚ :=
  let multiplier : ℚ := 2 / ((period : ℚ) + 1)
  let seed := (data.take period).sum / (period : ℚ)
  (data.drop period).foldl (fun ema x => (x - ema) * multiplier + ema) seed

/-- The consecutive differences `data[i] − data[i−1]` for `i = 1, …`. -/
def changesOf (data : List ℚ) : List ℚ :=
  List.zipWith (fun a b => a - b) (data.drop 1) data

/-- One step of the initial gain/loss accumulation in `RSI`:
`change > 0` adds to gains, otherwise `losses -= change`. -/
def glStep (gl : ℚ × ℚ) (ch : ℚ) : ℚ × ℚ :=
  if 0 < ch then (gl.1 + ch, gl.2) else (gl.1, gl.2 - ch)

/-- One step of the Wilder smoothing loop in `RSI`. -/
def wilderStep (period : ℕ) (avgs : ℚ × ℚ) (ch : ℚ) : ℚ × ℚ :=
  if 0 < ch then
    ((avgs.1 * ((period : ℚ) - 1) + ch) / (period : ℚ),
      avgs.2 * ((period : ℚ) - 1) / (period : ℚ))
  else
    (avgs.1 * ((period : ℚ) - 1) / (period : ℚ),
      (avgs.2 * ((period : ℚ) - 1) - ch) / (period : ℚ))

/-- The `(avgGain, avgLoss)` pair of `RSI`: initial averages over the
first `period` changes, then the Wilder smoothing loop over the rest. -/
def rsiAvgs (data : List ℚ) (period : ℕ) : ℚ × ℚ :=
  let cs := changesOf data
  let totals := (cs.take period).foldl glStep (0, 0)
  (cs.drop period).foldl (wilderStep period)
    (totals.1 / (period : ℚ), totals.2 / (period : ℚ))

/-- `TechnicalIndicators.RSI(data, period = 14)`: initial average gain/loss
over the first `period` changes, Wilder smoothing over the remaining ones,
`rs = avgGain / (avgLoss || 0.0001)`, output `100 − 100/(1+rs)`. -/
def RSI (data : List ℚ) (period : ℕ := 14) : ℚ :=
  if data.length < period + 1 then 50 else
    100 - 100 / (1 + (rsiAvgs data period).1 / qOr (rsiAvgs data period).2 (1/10000))

/-- Both accumulated gain and loss totals stay nonnegative. -/
theorem foldl_glStep_nonneg (cs : List ℚ) (gl : ℚ × ℚ)
    (h1 : 0 ≤ gl.1) (h2 : 0 ≤ gl.2) :
    0 ≤ (cs.foldl glStep gl).1 ∧ 0 ≤ (cs.foldl glStep gl).2 := by
  induction cs generalizing gl with
  | nil => exact ⟨h1, h2⟩
  | cons c cs ih =>
    simp only [List.foldl_cons]
    by_cases hc : 0 < c
    · exact ih _ (by simp [glStep, hc]; linarith) (by simp [glStep, hc]; linarith)
    · exact ih _ (by simp [glStep, hc]; linarith) (by simp [glStep, hc]; linarith)

/-- Wilder smoothing keeps both averages nonnegative (for `period ≥ 1`). -/
theorem foldl_wilderStep_nonneg (period : ℕ) (hp : 1 ≤ period) (cs : List ℚ)
    (a : ℚ × ℚ) (h1 : 0 ≤ a.1) (h2 : 0 ≤ a.2) :
    0 ≤ (cs.foldl (wilderStep period) a).1 ∧ 0 ≤ (cs.foldl (wilderStep period) a).2 := by
  have hp1 : (1 : ℚ) ≤ (period : ℚ) := by exact_mod_cast hp
  have hp0 : (0 : ℚ) ≤ (period : ℚ) := by linarith
  induction cs generalizing a with
  | nil => exact ⟨h1, h2⟩
  | cons c cs ih =>
    simp only [List.foldl_cons]
    by_cases hc : 0 < c
    · refine ih _ ?_ ?_
      · simp only [wilderStep, if_pos hc]
        exact div_nonneg (by nlinarith) hp0
      · simp only [wilderStep, if_pos hc]
        exact div_nonneg (by nlinarith) hp0
    · refine ih _ ?_ ?_
      · simp only [wilderStep, if_neg hc]
        exact div_nonneg (by nlinarith) hp0
      · simp only [wilderStep, if_neg hc]
        have : (0 : ℚ) ≤ -c := by linarith [not_lt.mp hc]
        exact div_nonneg (by nlinarith) hp0

/-- When no change is positive, the accumulated gain total stays at `0`. -/
theorem foldl_glStep_fst_zero (cs : List ℚ) (h : ∀ c ∈ cs, ¬ 0 < c)
    (gl : ℚ × ℚ) (h1 : gl.1 = 0) : (cs.foldl glStep gl).1 = 0 := by
  induction cs generalizing gl with
  | nil => exact h1
  | cons c cs ih =>
    simp only [List.foldl_cons]
    have hc : ¬ 0 < c := h c (by simp)
    exact ih (fun x hx => h x (by simp [hx])) _ (by simp [glStep, hc, h1])

/-- When no change is positive, the Wilder average gain stays at `0`. -/
theorem foldl_wilderStep_fst_zero (period : ℕ) (cs : List ℚ)
    (h : ∀ c ∈ cs, ¬ 0 < c) (a : ℚ × ℚ) (h1 : a.1 = 0) :
    (cs.foldl (wilderStep period) a).1 = 0 := by
  induction cs generalizing a with
  | nil => exact h1
  | cons c cs ih =>
    simp only [List.foldl_cons]
    have hc : ¬ 0 < c := h c (by simp)
    exact ih (fun x hx => h x (by simp [hx])) _ (by simp [wilderStep, hc, h1])

/-- Both components of `rsiAvgs` are nonnegative. -/
theorem rsiAvgs_nonneg (data : List ℚ) (period : ℕ) (hp : 1 ≤ period) :
    0 ≤ (rsiAvgs data period).1 ∧ 0 ≤ (rsiAvgs data period).2 := by
  have htot := foldl_glStep_nonneg ((changesOf data).take period) (0, 0) le_rfl le_rfl
  have hc : (0:ℚ) ≤ (period : ℚ) := by positivity
  simp only [rsiAvgs]
  exact foldl_wilderStep_nonneg period hp _ _
    (div_nonneg htot.1 hc) (div_nonneg htot.2 hc)

/-- When every consecutive change is a loss, the average gain is `0`. -/
theorem rsiAvgs_fst_zero (data : List ℚ) (period : ℕ)
    (hloss : ∀ c ∈ changesOf data, c < 0) : (rsiAvgs data period).1 = 0 := by
  simp only [rsiAvgs]
  refine foldl_wilderStep_fst_zero period _
    (fun c hc => not_lt.mpr (le_of_lt (hloss c (List.mem_of_mem_drop hc)))) _ ?_
  rw [foldl_glStep_fst_zero _
    (fun c hc => not_lt.mpr (le_of_lt (hloss c (List.mem_of_mem_take hc)))) _ rfl]
  norm_num

/-- C4 amended: `RSI` always lies in `[0, 100]` (in fact always strictly
below `100`: the `avgLoss || 0.0001` guard makes the all-gains value
approach but never reach `100`), and when the series is long enough and
every consecutive change is a loss, `RSI` is exactly `0`. -/
theorem RSI_range_and_all_loss (data : List ℚ) :
    (0 ≤ RSI data ∧ RSI data < 100) ∧
    (15 ≤ data.length → (∀ c ∈ changesOf data, c < 0) → RSI data = 0) := by
  constructor
  · unfold RSI
    split
    · norm_num
    · have havgs := rsiAvgs_nonneg data 14 (by norm_num)
      have hden : (0:ℚ) < qOr (rsiAvgs data 14).2 (1/10000) := by
        unfold qOr
        split
        · norm_num
        · rcases lt_or_eq_of_le havgs.2 with h | h
          · exact h
          · exact absurd h.symm (by assumption)
      have hrs : (0:ℚ) ≤ (rsiAvgs data 14).1 / qOr (rsiAvgs data 14).2 (1/10000) :=
        div_nonneg havgs.1 (le_of_lt hden)
      constructor
      · have hle : 100 / (1 + (rsiAvgs data 14).1 / qOr (rsiAvgs data 14).2 (1/10000)) ≤ 100 :=
          div_le_self (by norm_num) (by linarith)
        linarith
      · have hpos : (0:ℚ) < 100 / (1 + (rsiAvgs data 14).1 / qOr (rsiAvgs data 14).2 (1/10000)) :=
          div_pos (by norm_num) (by linarith)
        linarith
  · intro hlen hloss
    unfold RSI
    split
    · omega
    · rw [rsiAvgs_fst_zero data 14 hloss]
      norm_num

/-- Witness for C4 amended at the strictly decreasing series
`[14, 13, …, 0]`: all changes are losses and `RSI` is exactly `0`. -/
theorem RSI_range_and_all_loss_witness :
    0 ≤ RSI [14, 13, 12, 11, 10, 9, 8, 7, 6, 5, 4, 3, 2, 1, 0] ∧
    RSI [14, 13, 12, 11, 10, 9, 8, 7, 6, 5, 4, 3, 2, 1, 0] = 0 :=
  ⟨(RSI_range_and_all_loss _).1.1,
    (RSI_range_and_all_loss _).2 (by norm_num) (by norm_num [changesOf])⟩

/-- C4 counterexample: on `[0, 1, 2, …, 14]` every consecutive change is a
gain (`changesOf` is fourteen `1`s), yet `RSI` is `1000000/10001 ≈ 99.99`,
not exactly `100` — the `avgLoss || 0.0001` guard caps the all-gains value
strictly below `100`. -/
theorem RSI_all_gains_not_100 :
    changesOf [0, 1, 2, 3, 4, 5, 6, 7, 8, 9, 10, 11, 12, 13, 14]
      = [1, 1, 1, 1, 1, 1, 1, 1, 1, 1, 1, 1, 1, 1] ∧
    RSI [0, 1, 2, 3, 4, 5, 6, 7, 8, 9, 10, 11, 12, 13, 14] = 1000000/10001 ∧
    RSI [0, 1, 2, 3, 4, 5, 6, 7, 8, 9, 10, 11, 12, 13, 14] ≠ 100 := by
  refine ⟨by norm_num [changesOf], ?_, ?_⟩ <;>
    norm_num [RSI, rsiAvgs, changesOf, glStep, wilderStep, qOr]

/-! ## Swing extraction (`pattern-recognition.js` / `technical-indicators.js`) -/

/-- The inner window check shared by `findPeaks` (pattern-recognition) and
`findSwingHighs` (technical-indicators): `data[i]` strictly exceeds every
other point of `[i−period, i+period]`.  The JS loop runs `j` from
`i − period` to `i + period`; call sites guarantee `period ≤ i`, so the
truncated subtraction below enumerates exactly that window. -/
def isHighAt (data : List ℚ) (period i : ℕ) : Bool :=
  ((List.range (2 * period + 1)).map (fun k => i - period + k)).all
    (fun j => j == i || decide (data.getD j 0 < data.getD i 0))

/-- The mirrored window check of `findTroughs` / `findSwingLows`. -/
def isLowAt (data : List ℚ) (period i : ℕ) : Bool :=
  ((List.range (2 * period + 1)).map (fun k => i - period + k)).all
    (fun j => j == i || decide (data.getD i 0 < data.getD j 0))

/-- A reported extremum of `findPeaks` / `findTroughs`
(`{ index: i, value: data[i] }`). -/
structure PricePoint where
  index : ℕ
  value : ℚ
deriving Repr, DecidableEq

/-- `PatternRecognition.findPeaks(data, period = 5)`: the JS loop
`for (i = period; i < data.length - period; i++)` is rendered as a
`filterMap` over all indices guarded by `period ≤ i ∧ i + period < length`
(the same index set, without truncated subtraction in the bound). -/
def findPeaks (data : List ℚ) (period : ℕ := 5) : List PricePoint :=
  (List.range data.length).filterMap (fun i =>
    if period ≤ i ∧ i + period < data.length then
      (if isHighAt data period i then some ⟨i, data.getD i 0⟩ else none)
    else none)

/-- `PatternRecognition.findTroughs(data, period = 5)`. -/
def findTroughs (data : List ℚ) (period : ℕ := 5) : List PricePoint :=
  (List.range data.length).filterMap (fun i =>
    if period ≤ i ∧ i + period < data.length then
      (if isLowAt data period i then some ⟨i, data.getD i 0⟩ else none)
    else none)

/-- `TechnicalIndicators.findSwingHighs(data, period = 5)`: same loop and
window check, but it pushes the value `data[i]` only. -/
def findSwingHighs (data : List ℚ) (period : ℕ := 5) : List ℚ :=
  (List.range data.length).filterMap (fun i =>
    if period ≤ i ∧ i + period < data.length then
      (if isHighAt data period i then some (data.getD i 0) else none)
    else none)

/-- `TechnicalIndicators.findSwingLows(data, period = 5)`. -/
def findSwingLows (data : List ℚ) (period : ℕ := 5) : List ℚ :=
  (List.range data.length).filterMap (fun i =>
    if period ≤ i ∧ i + period < data.length then
      (if isLowAt data period i then some (data.getD i 0) else none)
    else none)

/-- C10: every extremum reported by the four swing-extraction primitives
lies at an index `i` with `period ≤ i ≤ length − period − 1` (stated as
`i + period + 1 ≤ length` to avoid truncated subtraction); in particular
none comes from the last `period` positions of its window. -/
theorem swing_primitives_index_bounds (data : List ℚ) (period : ℕ) :
    (∀ pk ∈ findPeaks data period,
      period ≤ pk.index ∧ pk.index + period + 1 ≤ data.length ∧
        data.getD pk.index 0 = pk.value) ∧
    (∀ tr ∈ findTroughs data period,
      period ≤ tr.index ∧ tr.index + period + 1 ≤ data.length ∧
        data.getD tr.index 0 = tr.value) ∧
    (∀ v ∈ findSwingHighs data period,
      ∃ i, period ≤ i ∧ i + period + 1 ≤ data.length ∧ data.getD i 0 = v) ∧
    (∀ v ∈ findSwingLows data period,
      ∃ i, period ≤ i ∧ i + period + 1 ≤ data.length ∧ data.getD i 0 = v) := by
  have hpoint : ∀ (f : ℕ → Bool) (x : PricePoint),
      x ∈ (List.range data.length).filterMap (fun i =>
        if period ≤ i ∧ i + period < data.length then
          (if f i then some (PricePoint.mk i (data.getD i 0)) else none)
        else none) →
      period ≤ x.index ∧ x.index + period + 1 ≤ data.length ∧
        data.getD x.index 0 = x.value := by
    intro f x hx
    simp only [List.mem_filterMap, List.mem_range] at hx
    obtain ⟨i, _, heq⟩ := hx
    by_cases hg : period ≤ i ∧ i + period < data.length
    · rw [if_pos hg] at heq
      split at heq
      · simp only [Option.some.injEq] at heq
        subst heq
        exact ⟨hg.1, by simp only; omega, rfl⟩
      · exact absurd heq (by simp)
    · rw [if_neg hg] at heq
      exact absurd heq (by simp)
  have hval : ∀ (f : ℕ → Bool) (v : ℚ),
      v ∈ (List.range data.length).filterMap (fun i =>
        if period ≤ i ∧ i + period < data.length then
          (if f i then some (data.getD i 0) else none)
        else none) →
      ∃ i, period ≤ i ∧ i + period + 1 ≤ data.length ∧ data.getD i 0 = v := by
    intro f v hv
    simp only [List.mem_filterMap, List.mem_range] at hv
    obtain ⟨i, _, heq⟩ := hv
    by_cases hg : period ≤ i ∧ i + period < data.length
    · rw [if_pos hg] at heq
      split at heq
      · simp only [Option.some.injEq] at heq
        exact ⟨i, hg.1, by omega, heq⟩
      · exact absurd heq (by simp)
    · rw [if_neg hg] at heq
      exact absurd heq (by simp)
  exact ⟨fun pk h => hpoint _ pk h, fun tr h => hpoint _ tr h,
    fun v h => hval _ v h, fun v h => hval _ v h⟩

/-- Witness for C10: on an 11-point series with a spike at index 5,
`findPeaks` reports that interior peak, and its index obeys the bounds. -/
theorem swing_primitives_index_bounds_witness :
    5 ≤ (PricePoint.mk 5 1).index ∧ (PricePoint.mk 5 1).index + 5 + 1 ≤
        ([0, 0, 0, 0, 0, 1, 0, 0, 0, 0, 0] : List ℚ).length ∧
      ([0, 0, 0, 0, 0, 1, 0, 0, 0, 0, 0] : List ℚ).getD (PricePoint.mk 5 1).index 0
        = (PricePoint.mk 5 1).value :=
  (swing_primitives_index_bounds [0, 0, 0, 0, 0, 1, 0, 0, 0, 0, 0] 5).1
    (PricePoint.mk 5 1)
    (by norm_num [findPeaks, isHighAt, List.mem_filterMap, List.mem_range, List.range_succ])

/-! ## The per-candle indicator loop (`calculateAll`) -/

/-- JS `Array.prototype.slice(a, b)` for `0 ≤ a ≤ b`. -/
def jsSlice (l : List ℚ) (a b : ℕ) : List ℚ := (l.drop a).take (b - a)

/-- JS `Math.max(...xs)`.  On an empty array JS yields `-Infinity`; every
call site below passes a nonempty window, where this equals the maximum. -/
def jsMax : List ℚ → ℚ
  | [] => 0
  | x :: xs => xs.foldl max x

/-- JS `Math.min(...xs)` (see `jsMax` for the empty case). -/
def jsMin : List ℚ → ℚ
  | [] => 0
  | x :: xs => xs.foldl min x

/-- Result of `MACD`. -/
structure MACDResult where
  macd : ℚ
  signal : ℚ
  histogram : ℚ
deriving Repr, DecidableEq

/-- `TechnicalIndicators.MACD(data)`: `EMA12 − EMA26`, a signal line that
is the 9-EMA of the per-prefix MACD line (or the MACD itself when fewer
than 9 points), and the histogram. -/
def MACD (data : List ℚ) : MACDResult :=
  let macd := EMA data 12 - EMA data 26
  let macdLine := ((List.range data.length).drop 26).map
    (fun i => EMA (data.take (i + 1)) 12 - EMA (data.take (i + 1)) 26)
  let signal := if 9 ≤ macdLine.length then EMA macdLine 9 else macd
  { macd := macd, signal := signal, histogram := macd - signal }

/-- Result of `BollingerBands`. -/
structure BBResult where
  upper : ℚ
  middle : ℚ
  lower : ℚ
deriving Repr, DecidableEq

/-- `TechnicalIndicators.BollingerBands(data, period = 20, stdDev = 2)`.
`Math.sqrt` is threaded through as the explicit parameter `sqrt` (the JS
`period` parameter is unused in the source body and omitted here). -/
def BollingerBands (sqrt : ℚ → ℚ) (data : List ℚ) (stdDev : ℚ := 2) : BBResult :=
  let middle := SMA data
  let variance := (data.map (fun v => (v - middle) ^ 2)).sum / (data.length : ℚ)
  let sd := sqrt variance
  { upper := middle + stdDev * sd, middle := middle, lower := middle - stdDev * sd }

/-- Result of `Stochastic`. -/
structure StochResult where
  k : ℚ
  d : ℚ
deriving Repr, DecidableEq

/-- `TechnicalIndicators.Stochastic(highs, lows, closes)`: `%K` over the
whole supplied window, `%D = %K` (source simplification).  The JS
`kPeriod`/`dPeriod` parameters are unused in the source body. -/
def Stochastic (highs lows closes : List ℚ) : StochResult :=
  let high := jsMax highs
  let low := jsMin lows
  let close := (closes.getLast?).getD 0
  let k := (close - low) / qOr (high - low) 1 * 100
  { k := k, d := k }

/-- The true range of index `i` against index `i − 1`. -/
def trueRangeAt (highs lows closes : List ℚ) (i : ℕ) : ℚ :=
  max (highs.getD i 0 - lows.getD i 0)
    (max |highs.getD i 0 - closes.getD (i - 1) 0| |lows.getD i 0 - closes.getD (i - 1) 0|)

/-- `TechnicalIndicators.ADX(highs, lows, closes, period = 14)`: the
simplified directional index.  When the accumulated true range is zero JS
divides by zero (`NaN`); in `ℚ` that division is `0` — no claim depends on
the numeric value of `adx`, only on its presence. -/
def ADX (highs lows closes : List ℚ) (period : ℕ := 14) : ℚ :=
  if highs.length < period + 1 then 0 else
  let acc := ((List.range highs.length).drop 1).foldl
    (fun (acc : ℚ × ℚ × ℚ) i =>
      (acc.1 + max (highs.getD i 0 - highs.getD (i - 1) 0) 0,
        acc.2.1 + max (lows.getD (i - 1) 0 - lows.getD i 0) 0,
        acc.2.2 + trueRangeAt highs lows closes i))
    (0, 0, 0)
  let plusDI := acc.1 / acc.2.2 * 100
  let minusDI := acc.2.1 / acc.2.2 * 100
  |plusDI - minusDI| / qOr (plusDI + minusDI) 1 * 100

/-- `TechnicalIndicators.ATR(highs, lows, closes)`: mean true range.  The
JS `period` parameter is unused in the source body.  At the single
`calculateAll` call site the window has 14 elements, so the `ℚ`-total
division never meets a zero denominator there. -/
def ATR (highs lows closes : List ℚ) : ℚ :=
  let tr := ((List.range highs.length).drop 1).foldl
    (fun a i => a + trueRangeAt highs lows closes i) 0
  tr / ((highs.length : ℚ) - 1)

/-- The JS loop `for (i...) arr.push(f(arr, i))`: element `i` is produced
from the list of the previous elements. -/
def buildList {α : Type} (f : List α → ℕ → α) : ℕ → List α
  | 0 => []
  | n + 1 => buildList f n ++ [f (buildList f n) n]

theorem buildList_length {α : Type} (f : List α → ℕ → α) (n : ℕ) :
    (buildList f n).length = n := by
  induction n with
  | zero => rfl
  | succ n ih => simp [buildList, ih]

theorem buildList_getElem? {α : Type} (f : List α → ℕ → α) (n i : ℕ) (h : i < n) :
    (buildList f n)[i]? = some (f (buildList f i) i) := by
  induction n with
  | zero => omega
  | succ n ih =>
    rcases Nat.lt_succ_iff_lt_or_eq.mp h with h' | h'
    · rw [buildList, List.getElem?_append_left (by rw [buildList_length]; exact h')]
      exact ih h'
    · subst h'
      rw [buildList]
      have := List.getElem?_concat_length (buildList f i) (f (buildList f i) i)
      rwa [buildList_length] at this

/-- Default candle used by total list indexing (in-range indices never
fall back to it). -/
def dCandle : Candle := ⟨0, 0, 0, 0, 0, 0⟩

/-- The body of the `calculateAll` loop: the snapshot at index `i`, given
the snapshots built so far (`acc`, read only through
`indicators[i-1]?.obv || 0`).  Each field is set exactly under the
source's lookback guard on `i`; the slices are the source's
`slice(start, i + 1)` windows (truncated `ℕ` subtraction realises the
`Math.max(0, …)` clamps of the RSI and ADX slices). -/
def mkSnapshot (sqrt : ℚ → ℚ) (candles : List Candle)
    (closes highs lows volumes : List ℚ)
    (acc : List IndicatorSnapshot) (i : ℕ) : IndicatorSnapshot :=
  let c := candles.getD i dCandle
  let bb := BollingerBands sqrt (jsSlice closes (i - 19) (i + 1))
  let stoch := Stochastic (jsSlice highs (i - 13) (i + 1)) (jsSlice lows (i - 13) (i + 1))
    (jsSlice closes (i - 13) (i + 1))
  let m := MACD (closes.take (i + 1))
  let avgVolume := SMA (jsSlice volumes (i - 19) (i + 1))
  let prevOBV := jsOr ((acc[i - 1]?).bind (fun s => s.obv)) 0
  { timestamp := c.timestamp
    price := c.close
    ema9 := if 9 ≤ i then some (EMA (closes.take (i + 1)) 9) else none
    ema20 := if 20 ≤ i then some (EMA (closes.take (i + 1)) 20) else none
    ema50 := if 50 ≤ i then some (EMA (closes.take (i + 1)) 50) else none
    sma20 := if 20 ≤ i then some (SMA (jsSlice closes (i - 19) (i + 1))) else none
    sma50 := if 50 ≤ i then some (SMA (jsSlice closes (i - 49) (i + 1))) else none
    sma200 := if 200 ≤ i then some (SMA (jsSlice closes (i - 199) (i + 1))) else none
    rsi := if 14 ≤ i then some (RSI (jsSlice closes (i - 14) (i + 1))) else none
    macd := if 26 ≤ i then some m.macd else none
    macdSignal := if 26 ≤ i then some m.signal else none
    macdHistogram := if 26 ≤ i then some m.histogram else none
    bollingerUpper := if 20 ≤ i then some bb.upper else none
    bollingerMiddle := if 20 ≤ i then some bb.middle else none
    bollingerLower := if 20 ≤ i then some bb.lower else none
    bollingerBand := if 20 ≤ i then
        some ((c.close - bb.lower) / (bb.upper - bb.lower)) else none
    stochK := if 14 ≤ i then some stoch.k else none
    stochD := if 14 ≤ i then some stoch.d else none
    adx := if 14 ≤ i then some (ADX (jsSlice highs (i - 14) (i + 1))
        (jsSlice lows (i - 14) (i + 1)) (jsSlice closes (i - 14) (i + 1))) else none
    atr := if 14 ≤ i then some (ATR (jsSlice highs (i - 13) (i + 1))
        (jsSlice lows (i - 13) (i + 1)) (jsSlice closes (i - 13) (i + 1))) else none
    volumeRatio := if 20 ≤ i then some (c.volume / avgVolume) else none
    volumeMA := if 20 ≤ i then some avgVolume else none
    obv := if 1 ≤ i then
        some (if (candles.getD (i - 1) dCandle).close < c.close then prevOBV + c.volume
          else if c.close < (candles.getD (i - 1) dCandle).close then prevOBV - c.volume
          else prevOBV)
      else none }

/-- `TechnicalIndicators.calculateAll(candles)`: fewer than 50 candles
yields the empty sequence, otherwise one snapshot per candle. -/
def calculateAll (sqrt : ℚ → ℚ) (candles : List Candle) : List IndicatorSnapshot :=
  if candles.length < 50 then [] else
  buildList (mkSnapshot sqrt candles (candles.map (fun c => c.close))
    (candles.map (fun c => c.high)) (candles.map (fun c => c.low))
    (candles.map (fun c => c.volume))) candles.length

theorem isSome_ite_some {c : Prop} [Decidable c] {x : ℚ} :
    ((if c then some x else none) : Option ℚ).isSome = true ↔ c := by
  split <;> simp [*]

/-- C3 counterexample: on a single candle `calculateAll` returns the empty
sequence, not one snapshot per candle — any input shorter than 50 candles
produces no snapshots at all. -/
theorem calculateAll_short_input_empty :
    calculateAll (fun _ => 0) [dCandle] = [] ∧
    ([dCandle] : List Candle).length = 1 := by
  exact ⟨rfl, rfl⟩

/-- C3 amended: for inputs of at least 50 candles, `calculateAll` returns
one snapshot per candle in input order — snapshot `i` carries candle `i`'s
timestamp and close, and each indicator field is present exactly once its
lookback window is satisfied (`ema9` at `i ≥ 9`, `ema20`/`sma20`/
Bollinger/volume at `i ≥ 20`, `ema50`/`sma50` at `i ≥ 50`, `sma200` at
`i ≥ 200`, `rsi`/stochastic/`adx`/`atr` at `i ≥ 14`, MACD at `i ≥ 26`,
`obv` at `i ≥ 1`).  Inputs shorter than 50 candles yield `[]`. -/
theorem calculateAll_length_aligned (sqrt : ℚ → ℚ) (candles : List Candle)
    (h : 50 ≤ candles.length) :
    (calculateAll sqrt candles).length = candles.length ∧
    ∀ i, i < candles.length →
      ∃ snap, (calculateAll sqrt candles)[i]? = some snap ∧
        snap.timestamp = (candles.getD i dCandle).timestamp ∧
        snap.price = (candles.getD i dCandle).close ∧
        (snap.ema9.isSome ↔ 9 ≤ i) ∧ (snap.ema20.isSome ↔ 20 ≤ i) ∧
        (snap.ema50.isSome ↔ 50 ≤ i) ∧ (snap.sma20.isSome ↔ 20 ≤ i) ∧
        (snap.sma50.isSome ↔ 50 ≤ i) ∧ (snap.sma200.isSome ↔ 200 ≤ i) ∧
        (snap.rsi.isSome ↔ 14 ≤ i) ∧ (snap.macd.isSome ↔ 26 ≤ i) ∧
        (snap.macdSignal.isSome ↔ 26 ≤ i) ∧ (snap.macdHistogram.isSome ↔ 26 ≤ i) ∧
        (snap.bollingerUpper.isSome ↔ 20 ≤ i) ∧ (snap.bollingerMiddle.isSome ↔ 20 ≤ i) ∧
        (snap.bollingerLower.isSome ↔ 20 ≤ i) ∧ (snap.bollingerBand.isSome ↔ 20 ≤ i) ∧
        (snap.stochK.isSome ↔ 14 ≤ i) ∧ (snap.stochD.isSome ↔ 14 ≤ i) ∧
        (snap.adx.isSome ↔ 14 ≤ i) ∧ (snap.atr.isSome ↔ 14 ≤ i) ∧
        (snap.volumeRatio.isSome ↔ 20 ≤ i) ∧ (snap.volumeMA.isSome ↔ 20 ≤ i) ∧
        (snap.obv.isSome ↔ 1 ≤ i) := by
  have hnot : ¬ candles.length < 50 := not_lt.mpr h
  rw [calculateAll, if_neg hnot]
  refine ⟨buildList_length _ _, fun i hi => ?_⟩
  refine ⟨_, buildList_getElem? _ _ i hi, ?_⟩
  simp [mkSnapshot, isSome_ite_some]

/-- Witness for C3 amended on a concrete 50-candle input. -/
theorem calculateAll_length_aligned_witness :
    50 ≤ (List.replicate 50 dCandle).length ∧
    (calculateAll (fun _ => 0) (List.replicate 50 dCandle)).length
      = (List.replicate 50 dCandle).length :=
  ⟨by simp, (calculateAll_length_aligned (fun _ => 0) (List.replicate 50 dCandle)
      (by simp)).1⟩

/-! ## Trade setup detector (`trade-setup-detector.js`) -/

/-- `this.minConfidence` (constructor default `0.60`). -/
def minConfidence : ℚ := 3/5

/-- `candles[candles.length - 1].close`.  JS would throw on an empty
array; the claims only concern nonempty inputs, where this is the last
close. -/
def lastClose (candles : List Candle) : ℚ :=
  match candles.getLast? with
  | some c => c.close
  | none => 0

/-- `pat` is a prefix of the second character list. -/
def charsHavePrefix : List Char → List Char → Bool
  | [], _ => true
  | _ :: _, [] => false
  | a :: as, b :: bs => a == b && charsHavePrefix as bs

/-- `pat` occurs somewhere in the second character list. -/
def charsContain (pat : List Char) : List Char → Bool
  | [] => charsHavePrefix pat []
  | l@(_ :: rest) => charsHavePrefix pat l || charsContain pat rest

/-- `String.prototype.includes`. -/
def strIncludes (s pat : String) : Bool := charsContain pat.toList s.toList

/-- Step 1 of `detectTrendFollowing`: the regime check.  Each step
carries the `(signals, score)` accumulator of the source. -/
def trendRegimeStep (regime : Regime) : List String × ℚ :=
  if regime.regime = "BULLISH_TRENDING" ∨ regime.regime = "BEARISH_TRENDING" then
    (["Trending Market"], 1)
  else ([], 0)

/-- Step 2: EMA alignment.  The JS guard
`indicator.ema9 && indicator.ema20 && indicator.ema50` is truthiness: all
three present and nonzero. -/
def trendMAStep (indicator : IndicatorSnapshot) (acc : List String × ℚ) : List String × ℚ :=
  if truthy indicator.ema9 ∧ truthy indicator.ema20 ∧ truthy indicator.ema50 then
    if indicator.ema20.getD 0 < indicator.ema9.getD 0 ∧
        indicator.ema50.getD 0 < indicator.ema20.getD 0 then
      (acc.1 ++ ["Bullish MA Alignment"], acc.2 + 3/2)
    else if indicator.ema9.getD 0 < indicator.ema20.getD 0 ∧
        indicator.ema20.getD 0 < indicator.ema50.getD 0 then
      (acc.1 ++ ["Bearish MA Alignment"], acc.2 - 3/2)
    else acc
  else acc

/-- Step 3: AI-prediction alignment (only added when the prediction
direction agrees with the sign of the score so far). -/
def trendPredictionStep (prediction : Option Prediction) (acc : List String × ℚ) :
    List String × ℚ :=
  match prediction with
  | some p =>
    if (0 < acc.2 ∧ p.direction = "LONG") ∨ (acc.2 < 0 ∧ p.direction = "SHORT") then
      (acc.1 ++ ["AI Confirms " ++ p.direction], acc.2 + p.confidence * 2)
    else acc
  | none => acc

/-- Step 4: MACD confirmation (truthiness guard again). -/
def trendMACDStep (indicator : IndicatorSnapshot) (acc : List String × ℚ) : List String × ℚ :=
  if truthy indicator.macd ∧ truthy indicator.macdSignal then
    if 0 < acc.2 ∧ indicator.macdSignal.getD 0 < indicator.macd.getD 0 then
      (acc.1 ++ ["MACD Bullish"], acc.2 + 4/5)
    else if acc.2 < 0 ∧ indicator.macd.getD 0 < indicator.macdSignal.getD 0 then
      (acc.1 ++ ["MACD Bearish"], acc.2 - 4/5)
    else acc
  else acc

/-- `maxScore` accumulates unconditionally: `1 + 1.5 + 2 + 0.8 = 5.3`. -/
def trendMaxScore : ℚ := 1 + 3/2 + 2 + 4/5

/-- The full `(signals, score)` accumulator of `detectTrendFollowing`. -/
def trendAcc (indicator : IndicatorSnapshot) (prediction : Option Prediction)
    (regime : Regime) : List String × ℚ :=
  trendMACDStep indicator (trendPredictionStep prediction
    (trendMAStep indicator (trendRegimeStep regime)))

/-- The setup record emitted by `detectTrendFollowing`. -/
def trendSetupOf (candles : List Candle) (indicator : IndicatorSnapshot)
    (signals : List String) (score : ℚ) (now : ℤ) : TradeSetup :=
  let direction := if 0 < score then "LONG" else "SHORT"
  let currentPrice := lastClose candles
  let atr := jsOr indicator.atr (currentPrice * (2/100))
  { type := "TREND_FOLLOWING"
    direction := direction
    confidence := |score| / trendMaxScore
    entry := currentPrice
    stopLoss := if direction = "LONG" then currentPrice - atr * 2 else currentPrice + atr * 2
    takeProfit := if direction = "LONG" then currentPrice + atr * 4 else currentPrice - atr * 4
    riskReward := 2
    signals := signals
    timestamp := now }

/-- Strategy 1, `detectTrendFollowing`.  Note: the source computes
`normalizedScore = |score| / maxScore` with no `0.95` clamp. -/
def detectTrendFollowing (candles : List Candle) (indicator : IndicatorSnapshot)
    (prediction : Option Prediction) (regime : Regime) (now : ℤ) : Option TradeSetup :=
  let acc := trendAcc indicator prediction regime
  if minConfidence ≤ |acc.2| / trendMaxScore then
    some (trendSetupOf candles indicator acc.1 acc.2 now)
  else none

/-- The `(signals, score)` accumulator of `detectMeanReversion` after the
Bollinger and reversal-pattern additions. -/
def meanRevAcc (indicator : IndicatorSnapshot) (patterns : List Pattern)
    (signals1 : List String) (score1 : ℚ) : List String × ℚ :=
  let acc2 :=
    if indicator.bollingerBand.isSome then
      if indicator.bollingerBand.getD 0 < 1/10 then (signals1 ++ ["At Lower BB"], score1 + 1)
      else if 9/10 < indicator.bollingerBand.getD 0 then
        (signals1 ++ ["At Upper BB"], score1 - 1)
      else (signals1, score1)
    else (signals1, score1)
  let reversalPatterns := patterns.filter (fun p =>
    decide ((0 < acc2.2 ∧ p.direction = "BULLISH") ∨ (acc2.2 < 0 ∧ p.direction = "BEARISH")))
  match reversalPatterns with
  | [] => acc2
  | p :: _ => (acc2.1 ++ ["Pattern: " ++ p.type], acc2.2 + p.confidence)

/-- The setup record emitted by `detectMeanReversion`. -/
def meanRevSetupOf (price : ℚ) (indicator : IndicatorSnapshot)
    (signals : List String) (score : ℚ) (now : ℤ) : TradeSetup :=
  let direction := if 0 < score then "LONG" else "SHORT"
  let stopLossDistance := price * (15/1000)
  { type := "MEAN_REVERSION"
    direction := direction
    confidence := min (19/20) (|score| / (7/2))
    entry := price
    stopLoss := if direction = "LONG" then price - stopLossDistance
      else price + stopLossDistance
    takeProfit := if direction = "LONG" then jsOr indicator.bollingerMiddle (price * (102/100))
      else jsOr indicator.bollingerMiddle (price * (98/100))
    riskReward := 2
    signals := signals
    timestamp := now }

/-- The common body of `detectMeanReversion` after the RSI-extreme
classification. -/
def meanRevBody (price : ℚ) (indicator : IndicatorSnapshot) (patterns : List Pattern)
    (now : ℤ) (signals1 : List String) (score1 : ℚ) : Option TradeSetup :=
  let acc3 := meanRevAcc indicator patterns signals1 score1
  if minConfidence ≤ min (19/20) (|acc3.2| / (7/2)) then
    some (meanRevSetupOf price indicator acc3.1 acc3.2 now)
  else none

/-- Strategy 2, `detectMeanReversion`: requires an RSI extreme
(`rsi < 30` or `rsi > 70`; an absent `rsi` compares false both times and
yields no setup). -/
def detectMeanReversion (price : ℚ) (indicator : IndicatorSnapshot)
    (patterns : List Pattern) (now : ℤ) : Option TradeSetup :=
  if oLt indicator.rsi 30 then meanRevBody price indicator patterns now ["RSI Oversold"] (3/2)
  else if oGt indicator.rsi 70 then
    meanRevBody price indicator patterns now ["RSI Overbought"] (-(3/2))
  else none

/-- The `(signals, score)` accumulator of `detectBreakout`, given the
breakout direction flag. -/
def breakoutAcc (indicator : IndicatorSnapshot) (patterns : List Pattern)
    (breakingHigh : Bool) : List String × ℚ :=
  let acc1 := if breakingHigh then (["Breaking Recent High"], (3/2 : ℚ))
    else (["Breaking Recent Low"], (-(3/2) : ℚ))
  let acc2 := if oGt indicator.volumeRatio (3/2) then
      (acc1.1 ++ ["High Volume Breakout"], acc1.2 + (if 0 < acc1.2 then 1 else -1))
    else acc1
  let breakoutPatterns := patterns.filter (fun p =>
    strIncludes p.type "TRIANGLE" || strIncludes p.type "FLAG")
  match breakoutPatterns with
  | [] => acc2
  | p :: _ => (acc2.1 ++ ["Pattern: " ++ p.type], acc2.2 + p.confidence)

/-- The setup record emitted by `detectBreakout`. -/
def breakoutSetupOf (currentPrice recentHigh recentLow : ℚ)
    (signals : List String) (score : ℚ) (now : ℤ) : TradeSetup :=
  let direction := if 0 < score then "LONG" else "SHORT"
  let range := recentHigh - recentLow
  { type := "BREAKOUT"
    direction := direction
    confidence := min (19/20) (|score| / (7/2))
    entry := currentPrice
    stopLoss := if direction = "LONG" then recentHigh * (995/1000)
      else recentLow * (1005/1000)
    takeProfit := if direction = "LONG" then currentPrice + range else currentPrice - range
    riskReward := 2
    signals := signals
    timestamp := now }

/-- Strategy 3, `detectBreakout`. -/
def detectBreakout (candles : List Candle) (indicator : IndicatorSnapshot)
    (patterns : List Pattern) (now : ℤ) : Option TradeSetup :=
  let currentPrice := lastClose candles
  let last20 := candles.drop (candles.length - 20)
  let recentHigh := jsMax (last20.map (fun c => c.high))
  let recentLow := jsMin (last20.map (fun c => c.low))
  let breakingHigh := decide (recentHigh * (1001/1000) < currentPrice)
  let breakingLow := decide (currentPrice < recentLow * (999/1000))
  if breakingHigh = false ∧ breakingLow = false then none else
  let acc3 := breakoutAcc indicator patterns breakingHigh
  if minConfidence ≤ min (19/20) (|acc3.2| / (7/2)) then
    some (breakoutSetupOf currentPrice recentHigh recentLow acc3.1 acc3.2 now)
  else none

/-- `patterns.reduce((best, current) => current.confidence > best.confidence
? current : best)`: first highest-confidence pattern. -/
def bestPatternOf (p0 : Pattern) (rest : List Pattern) : Pattern :=
  rest.foldl (fun best current =>
    if best.confidence < current.confidence then current else best) p0

/-- The `(signals, confidence)` accumulator of `detectPatternTrade`
(indicator and AI confirmation bonuses on top of the pattern's own
confidence). -/
def patternAcc (bestPattern : Pattern) (indicator : IndicatorSnapshot)
    (prediction : Option Prediction) : List String × ℚ :=
  let acc1 := (["Pattern: " ++ bestPattern.type], bestPattern.confidence)
  let acc2 :=
    if bestPattern.direction = "BULLISH" ∧ oLt indicator.rsi 50 then
      (acc1.1 ++ ["RSI Below 50"], acc1.2 + 1/20)
    else if bestPattern.direction = "BEARISH" ∧ oGt indicator.rsi 50 then
      (acc1.1 ++ ["RSI Above 50"], acc1.2 + 1/20)
    else acc1
  match prediction with
  | some p => if p.direction = bestPattern.direction then
      (acc2.1 ++ ["AI Confirms"], acc2.2 + 1/10) else acc2
  | none => acc2

/-- The setup record emitted by `detectPatternTrade`. -/
def patternSetupOf (bestPattern : Pattern) (indicator : IndicatorSnapshot)
    (signals : List String) (confidence : ℚ) (now : ℤ) : TradeSetup :=
  { type := "PATTERN_TRADE"
    direction := bestPattern.direction
    confidence := min (19/20) confidence
    entry := jsOr bestPattern.level indicator.price
    stopLoss := if bestPattern.direction = "BULLISH" then
        bestPattern.level.getD 0 * (98/100)
      else bestPattern.level.getD 0 * (102/100)
    takeProfit := bestPattern.target.getD 0
    riskReward := 2
    signals := signals
    pattern := some bestPattern.type
    timestamp := now }

/-- Strategy 4, `detectPatternTrade`.  `if (bestPattern.target)` is JS
truthiness (`undefined` and `0` both fail).  The stop expression
`bestPattern.level * 0.98` would be `NaN` in JS when `level` is absent;
it is embedded via `getD 0` — no theorem below depends on the stop value
of a pattern setup (its `direction` is never `LONG`/`SHORT` under the
data-model hypotheses), so the placeholder is never load-bearing. -/
def detectPatternTrade (patterns : List Pattern) (indicator : IndicatorSnapshot)
    (prediction : Option Prediction) (now : ℤ) : Option TradeSetup :=
  match patterns with
  | [] => none
  | p0 :: rest =>
    let bestPattern := bestPatternOf p0 rest
    if bestPattern.confidence < minConfidence then none else
    let acc3 := patternAcc bestPattern indicator prediction
    if truthy bestPattern.target then
      some (patternSetupOf bestPattern indicator acc3.1 acc3.2 now)
    else none

/-- A detected divergence (`{type, strength}`). -/
structure Divergence where
  type : String
  strength : ℚ
deriving Repr, DecidableEq

/-- `TechnicalIndicators.detectDivergence(prices, indicator, periods=20)`.
The source nests `length >= 2` around the swing comparisons; the two
guards are conjoined here (the nesting has no other effect). -/
def detectDivergence (prices indicator : List ℚ) (periods : ℕ := 20) : Option Divergence :=
  if prices.length < periods ∨ indicator.length < periods then none else
  let recentPrices := prices.drop (prices.length - periods)
  let recentIndicator := indicator.drop (indicator.length - periods)
  let priceHighs := findSwingHighs recentPrices
  let priceLows := findSwingLows recentPrices
  let indHighs := findSwingHighs recentIndicator
  let indLows := findSwingLows recentIndicator
  if 2 ≤ priceLows.length ∧ 2 ≤ indLows.length ∧
      priceLows.getD (priceLows.length - 1) 0 < priceLows.getD (priceLows.length - 2) 0 ∧
      indLows.getD (indLows.length - 2) 0 < indLows.getD (indLows.length - 1) 0 then
    some { type := "BULLISH", strength := 4/5 }
  else if 2 ≤ priceHighs.length ∧ 2 ≤ indHighs.length ∧
      priceHighs.getD (priceHighs.length - 2) 0 < priceHighs.getD (priceHighs.length - 1) 0 ∧
      indHighs.getD (indHighs.length - 1) 0 < indHighs.getD (indHighs.length - 2) 0 then
    some { type := "BEARISH", strength := 4/5 }
  else none

/-- The setup record emitted by `detectDivergenceTrade`. -/
def divergenceSetupOf (currentPrice : ℚ) (divergence : Divergence) (now : ℤ) : TradeSetup :=
  { type := "DIVERGENCE"
    direction := if divergence.type = "BULLISH" then "LONG" else "SHORT"
    confidence := divergence.strength
    entry := currentPrice
    stopLoss := if divergence.type = "BULLISH" then currentPrice * (98/100)
      else currentPrice * (102/100)
    takeProfit := if divergence.type = "BULLISH" then currentPrice * (104/100)
      else currentPrice * (96/100)
    riskReward := 2
    signals := [divergence.type ++ " Divergence (RSI)"]
    timestamp := now }

/-- Strategy 5, `detectDivergenceTrade`. -/
def detectDivergenceTrade (candles : List Candle) (indicators : List IndicatorSnapshot)
    (now : ℤ) : Option TradeSetup :=
  if indicators.length < 20 then none else
  let prices := (candles.drop (candles.length - 20)).map (fun c => c.close)
  let rsiValues := ((indicators.drop (indicators.length - 20)).map (fun s => s.rsi)).filterMap id
  if rsiValues.length < 20 then none else
  match detectDivergence prices rsiValues 20 with
  | none => none
  | some divergence => some (divergenceSetupOf (lastClose candles) divergence now)

/-- The descending-confidence ordering used by the final sort. -/
def confDesc (a b : TradeSetup) : Prop := b.confidence ≤ a.confidence

instance : DecidableRel confDesc :=
  fun a b => inferInstanceAs (Decidable (b.confidence ≤ a.confidence))

instance : IsTotal TradeSetup confDesc := ⟨fun a b => le_total b.confidence a.confidence⟩

instance : IsTrans TradeSetup confDesc := ⟨fun _ _ _ h1 h2 => le_trans h2 h1⟩

/-- `if (setup) setups.push(setup)`. -/
def pushOpt (l : List TradeSetup) : Option TradeSetup → List TradeSetup
  | some s => l ++ [s]
  | none => l

/-- `TradeSetupDetector.analyzeMarket(candles, indicators, patterns,
prediction, regime)`: run the five strategies, filter by `minConfidence`,
sort by descending confidence.  JS `Array.prototype.sort` with the
comparator `(a, b) => b.confidence - a.confidence` produces a stable
permutation sorted by nonincreasing confidence; it is embedded as
insertion sort by `confDesc`, which has exactly those properties (the
claims depend only on membership and sortedness).  JS would throw on
empty `candles`/`indicators` (reading fields of `undefined`); the
`getLast?`-defaults make the embedding total, and the claims' hypotheses
keep to the nonempty cases. -/
def analyzeMarket (candles : List Candle) (indicators : List IndicatorSnapshot)
    (patterns : List Pattern) (prediction : Option Prediction) (regime : Regime)
    (now : ℤ) : List TradeSetup :=
  let currentPrice := lastClose candles
  let latestIndicator := (indicators.getLast?).getD emptySnapshot
  let setups := pushOpt (pushOpt (pushOpt (pushOpt (pushOpt []
    (detectTrendFollowing candles latestIndicator prediction regime now))
    (detectMeanReversion currentPrice latestIndicator patterns now))
    (detectBreakout candles latestIndicator patterns now))
    (detectPatternTrade patterns latestIndicator prediction now))
    (detectDivergenceTrade candles indicators now)
  let validSetups := setups.filter (fun s => decide (minConfidence ≤ s.confidence))
  List.insertionSort confDesc validSetups

/-- C2: `analyzeMarket` never returns a setup below the `minConfidence`
threshold `0.60`, and its result is sorted by descending confidence. -/
theorem analyzeMarket_filtered_and_sorted (candles : List Candle)
    (indicators : List IndicatorSnapshot) (patterns : List Pattern)
    (prediction : Option Prediction) (regime : Regime) (now : ℤ) :
    (∀ s ∈ analyzeMarket candles indicators patterns prediction regime now,
      (3/5 : ℚ) ≤ s.confidence) ∧
    List.Sorted confDesc (analyzeMarket candles indicators patterns prediction regime now) := by
  constructor
  · intro s hs
    simp only [analyzeMarket] at hs
    rw [(List.perm_insertionSort confDesc _).mem_iff] at hs
    have := List.of_mem_filter hs
    simpa [minConfidence] using this
  · simp only [analyzeMarket]
    exact List.sorted_insertionSort confDesc _

/-! ## Helper lemmas about the detector -/

theorem mem_pushOpt {l : List TradeSetup} {o : Option TradeSetup} {s : TradeSetup}
    (h : s ∈ pushOpt l o) : s ∈ l ∨ o = some s := by
  cases o with
  | none => exact Or.inl h
  | some t =>
    simp only [pushOpt] at h
    rcases List.mem_append.mp h with h | h
    · exact Or.inl h
    · simp only [List.mem_singleton] at h
      exact Or.inr (by rw [h])

theorem detectTrendFollowing_some {candles : List Candle} {ind : IndicatorSnapshot}
    {pred : Option Prediction} {regime : Regime} {now : ℤ} {s : TradeSetup}
    (h : detectTrendFollowing candles ind pred regime now = some s) :
    s = trendSetupOf candles ind (trendAcc ind pred regime).1 (trendAcc ind pred regime).2 now := by
  simp only [detectTrendFollowing] at h
  split at h
  · exact (Option.some_inj.mp h).symm
  · exact absurd h (by simp)

theorem meanRevBody_some {price : ℚ} {ind : IndicatorSnapshot} {pats : List Pattern}
    {now : ℤ} {sig : List String} {sc : ℚ} {s : TradeSetup}
    (h : meanRevBody price ind pats now sig sc = some s) :
    s = meanRevSetupOf price ind (meanRevAcc ind pats sig sc).1
      (meanRevAcc ind pats sig sc).2 now := by
  simp only [meanRevBody] at h
  split at h
  · exact (Option.some_inj.mp h).symm
  · exact absurd h (by simp)

theorem detectMeanReversion_some {price : ℚ} {ind : IndicatorSnapshot}
    {pats : List Pattern} {now : ℤ} {s : TradeSetup}
    (h : detectMeanReversion price ind pats now = some s) :
    s = meanRevSetupOf price ind (meanRevAcc ind pats ["RSI Oversold"] (3/2)).1
        (meanRevAcc ind pats ["RSI Oversold"] (3/2)).2 now ∨
    s = meanRevSetupOf price ind (meanRevAcc ind pats ["RSI Overbought"] (-(3/2))).1
        (meanRevAcc ind pats ["RSI Overbought"] (-(3/2))).2 now := by
  unfold detectMeanReversion at h
  split at h
  · exact Or.inl (meanRevBody_some h)
  · split at h
    · exact Or.inr (meanRevBody_some h)
    · exact absurd h (by simp)

theorem detectBreakout_some {candles : List Candle} {ind : IndicatorSnapshot}
    {pats : List Pattern} {now : ℤ} {s : TradeSetup}
    (h : detectBreakout candles ind pats now = some s) :
    ∃ bh : Bool,
      s = breakoutSetupOf (lastClose candles)
        (jsMax ((candles.drop (candles.length - 20)).map (fun c => c.high)))
        (jsMin ((candles.drop (candles.length - 20)).map (fun c => c.low)))
        (breakoutAcc ind pats bh).1 (breakoutAcc ind pats bh).2 now ∧
      ((bh = true ∧ jsMax ((candles.drop (candles.length - 20)).map (fun c => c.high))
          * (1001/1000) < lastClose candles) ∨
       (bh = false ∧ lastClose candles <
          jsMin ((candles.drop (candles.length - 20)).map (fun c => c.low)) * (999/1000))) := by
  simp only [detectBreakout] at h
  split at h
  · exact absurd h (by simp)
  · rename_i hguard
    split at h
    · refine ⟨_, (Option.some_inj.mp h).symm, ?_⟩
      by_cases hbh : jsMax ((candles.drop (candles.length - 20)).map (fun c => c.high))
          * (1001/1000) < lastClose candles
      · exact Or.inl ⟨decide_eq_true hbh, hbh⟩
      · refine Or.inr ⟨decide_eq_false hbh, ?_⟩
        by_contra hbl
        exact hguard ⟨decide_eq_false hbh, decide_eq_false hbl⟩
    · exact absurd h (by simp)

theorem bestPatternOf_mem (p0 : Pattern) (rest : List Pattern) :
    bestPatternOf p0 rest ∈ p0 :: rest := by
  unfold bestPatternOf
  induction rest generalizing p0 with
  | nil => simp
  | cons q qs ih =>
    simp only [List.foldl_cons]
    by_cases hc : p0.confidence < q.confidence
    · rw [if_pos hc]
      rcases List.mem_cons.mp (ih q) with h | h
      · simp [h]
      · simp [List.mem_cons, h]
    · rw [if_neg hc]
      rcases List.mem_cons.mp (ih p0) with h | h
      · simp [h]
      · simp [List.mem_cons, h]

theorem detectPatternTrade_some {pats : List Pattern} {ind : IndicatorSnapshot}
    {pred : Option Prediction} {now : ℤ} {s : TradeSetup}
    (h : detectPatternTrade pats ind pred now = some s) :
    ∃ p0 rest, pats = p0 :: rest ∧
      s = patternSetupOf (bestPatternOf p0 rest) ind
        (patternAcc (bestPatternOf p0 rest) ind pred).1
        (patternAcc (bestPatternOf p0 rest) ind pred).2 now := by
  cases pats with
  | nil => exact absurd h (by simp [detectPatternTrade])
  | cons p0 rest =>
    simp only [detectPatternTrade] at h
    split at h
    · exact absurd h (by simp)
    · split at h
      · exact ⟨p0, rest, rfl, (Option.some_inj.mp h).symm⟩
      · exact absurd h (by simp)

theorem detectDivergence_strength {p i : List ℚ} {per : ℕ} {d : Divergence}
    (h : detectDivergence p i per = some d) : d.strength = 4/5 := by
  simp only [detectDivergence] at h
  split at h
  · exact absurd h (by simp)
  · split at h
    · obtain rfl := Option.some_inj.mp h
      rfl
    · split at h
      · obtain rfl := Option.some_inj.mp h
        rfl
      · exact absurd h (by simp)

theorem detectDivergenceTrade_some {candles : List Candle}
    {inds : List IndicatorSnapshot} {now : ℤ} {s : TradeSetup}
    (h : detectDivergenceTrade candles inds now = some s) :
    ∃ d, detectDivergence ((candles.drop (candles.length - 20)).map (fun c => c.close))
        (((inds.drop (inds.length - 20)).map (fun x => x.rsi)).filterMap id) 20 = some d ∧
      s = divergenceSetupOf (lastClose candles) d now := by
  simp only [detectDivergenceTrade] at h
  split at h
  · exact absurd h (by simp)
  · split at h
    · exact absurd h (by simp)
    · split at h
      · exact absurd h (by simp)
      · rename_i d hd
        exact ⟨d, hd, (Option.some_inj.mp h).symm⟩

theorem analyzeMarket_mem {candles : List Candle} {inds : List IndicatorSnapshot}
    {pats : List Pattern} {pred : Option Prediction} {regime : Regime} {now : ℤ}
    {s : TradeSetup} (hs : s ∈ analyzeMarket candles inds pats pred regime now) :
    detectTrendFollowing candles ((inds.getLast?).getD emptySnapshot) pred regime now
      = some s ∨
    detectMeanReversion (lastClose candles) ((inds.getLast?).getD emptySnapshot) pats now
      = some s ∨
    detectBreakout candles ((inds.getLast?).getD emptySnapshot) pats now = some s ∨
    detectPatternTrade pats ((inds.getLast?).getD emptySnapshot) pred now = some s ∨
    detectDivergenceTrade candles inds now = some s := by
  simp only [analyzeMarket] at hs
  rw [(List.perm_insertionSort confDesc _).mem_iff] at hs
  have hs' := List.mem_of_mem_filter hs
  rcases mem_pushOpt hs' with h4 | h4
  · rcases mem_pushOpt h4 with h3 | h3
    · rcases mem_pushOpt h3 with h2 | h2
      · rcases mem_pushOpt h2 with h1 | h1
        · rcases mem_pushOpt h1 with h0 | h0
          · exact absurd h0 (by simp)
          · exact Or.inl h0
        · exact Or.inr (Or.inl h1)
      · exact Or.inr (Or.inr (Or.inl h2))
    · exact Or.inr (Or.inr (Or.inr (Or.inl h3)))
  · exact Or.inr (Or.inr (Or.inr (Or.inr h4)))

theorem foldl_max_mem (x : ℚ) (xs : List ℚ) : xs.foldl max x ∈ x :: xs := by
  induction xs generalizing x with
  | nil => simp
  | cons y ys ih =>
    simp only [List.foldl_cons]
    rcases List.mem_cons.mp (ih (max x y)) with h | h
    · rw [h]
      rcases max_choice x y with hm | hm <;> rw [hm] <;> simp
    · simp [List.mem_cons, h]

theorem foldl_min_mem (x : ℚ) (xs : List ℚ) : xs.foldl min x ∈ x :: xs := by
  induction xs generalizing x with
  | nil => simp
  | cons y ys ih =>
    simp only [List.foldl_cons]
    rcases List.mem_cons.mp (ih (min x y)) with h | h
    · rw [h]
      rcases min_choice x y with hm | hm <;> rw [hm] <;> simp
    · simp [List.mem_cons, h]

theorem jsMax_mem {l : List ℚ} (h : l ≠ []) : jsMax l ∈ l := by
  cases l with
  | nil => exact absurd rfl h
  | cons x xs => exact foldl_max_mem x xs

theorem jsMin_mem {l : List ℚ} (h : l ≠ []) : jsMin l ∈ l := by
  cases l with
  | nil => exact absurd rfl h
  | cons x xs => exact foldl_min_mem x xs

theorem lastClose_pos {candles : List Candle} (hne : candles ≠ [])
    (hpos : ∀ c ∈ candles, 0 < c.close) : 0 < lastClose candles := by
  unfold lastClose
  cases hl : candles.getLast? with
  | none => exact absurd (List.getLast?_eq_none_iff.mp hl) hne
  | some c => exact hpos c (List.mem_of_mem_getLast? hl)

theorem trendRegimeStep_bound (regime : Regime) :
    0 ≤ (trendRegimeStep regime).2 ∧ (trendRegimeStep regime).2 ≤ 1 := by
  unfold trendRegimeStep
  split <;> norm_num

theorem trendMAStep_cases (ind : IndicatorSnapshot) (acc : List String × ℚ) :
    (trendMAStep ind acc).2 = acc.2 ∨ (trendMAStep ind acc).2 = acc.2 + 3/2 ∨
      (trendMAStep ind acc).2 = acc.2 - 3/2 := by
  unfold trendMAStep
  split
  · split
    · right; left; rfl
    · split
      · right; right; rfl
      · left; rfl
  · left; rfl

theorem trendPredictionStep_cases (pred : Option Prediction) (acc : List String × ℚ) :
    (trendPredictionStep pred acc).2 = acc.2 ∨
    ∃ p, pred = some p ∧ (trendPredictionStep pred acc).2 = acc.2 + p.confidence * 2 := by
  cases pred with
  | none => exact Or.inl rfl
  | some p =>
    by_cases hc : (0 < acc.2 ∧ p.direction = "LONG") ∨ (acc.2 < 0 ∧ p.direction = "SHORT")
    · refine Or.inr ⟨p, rfl, ?_⟩
      show (trendPredictionStep (some p) acc).2 = acc.2 + p.confidence * 2
      simp only [trendPredictionStep]
      rw [if_pos hc]
    · refine Or.inl ?_
      show (trendPredictionStep (some p) acc).2 = acc.2
      simp only [trendPredictionStep]
      rw [if_neg hc]

theorem trendMACDStep_cases (ind : IndicatorSnapshot) (acc : List String × ℚ) :
    (trendMACDStep ind acc).2 = acc.2 ∨
    ((trendMACDStep ind acc).2 = acc.2 + 4/5 ∧ 0 < acc.2) ∨
    ((trendMACDStep ind acc).2 = acc.2 - 4/5 ∧ acc.2 < 0) := by
  unfold trendMACDStep
  split
  · split
    · rename_i h2
      exact Or.inr (Or.inl ⟨rfl, h2.1⟩)
    · split
      · rename_i h3
        exact Or.inr (Or.inr ⟨rfl, h3.1⟩)
      · exact Or.inl rfl
  · exact Or.inl rfl

/-- With a prediction confidence in `[0, 1]`, the trend-following score
stays within `±maxScore`, so the normalized confidence is at most `1`
(but it is not capped at `0.95`). -/
theorem trendAcc_bound (ind : IndicatorSnapshot) (pred : Option Prediction)
    (regime : Regime)
    (hpred : ∀ p, pred = some p → 0 ≤ p.confidence ∧ p.confidence ≤ 1) :
    |(trendAcc ind pred regime).2| ≤ trendMaxScore := by
  obtain ⟨hr0, hr1⟩ := trendRegimeStep_bound regime
  have hpstep : (trendMAStep ind (trendRegimeStep regime)).2 ≤
      (trendPredictionStep pred (trendMAStep ind (trendRegimeStep regime))).2 ∧
      (trendPredictionStep pred (trendMAStep ind (trendRegimeStep regime))).2 ≤
        (trendMAStep ind (trendRegimeStep regime)).2 + 2 := by
    rcases trendPredictionStep_cases pred (trendMAStep ind (trendRegimeStep regime)) with
      h | ⟨p, hpeq, h⟩
    · rw [h]
      constructor <;> linarith
    · obtain ⟨hp0, hp1⟩ := hpred p hpeq
      rw [h]
      constructor <;> linarith
  unfold trendAcc trendMaxScore
  rw [abs_le]
  rcases trendMACDStep_cases ind
      (trendPredictionStep pred (trendMAStep ind (trendRegimeStep regime))) with
    h4 | ⟨h4, hs4⟩ | ⟨h4, hs4⟩ <;>
  rcases trendMAStep_cases ind (trendRegimeStep regime) with h2 | h2 | h2 <;>
    exact ⟨by linarith [hpstep.1, hpstep.2], by linarith [hpstep.1, hpstep.2]⟩

/-- Under pattern confidences in `[0, 1]`, the breakout score keeps the
sign of the breakout direction. -/
theorem breakoutAcc_sign (ind : IndicatorSnapshot) (pats : List Pattern) (bh : Bool)
    (hconf : ∀ p ∈ pats, 0 ≤ p.confidence ∧ p.confidence ≤ 1) :
    (bh = true → 0 < (breakoutAcc ind pats bh).2) ∧
    (bh = false → (breakoutAcc ind pats bh).2 < 0) := by
  have hmem : ∀ p l, pats.filter (fun p =>
      strIncludes p.type "TRIANGLE" || strIncludes p.type "FLAG") = p :: l →
      0 ≤ p.confidence ∧ p.confidence ≤ 1 := by
    intro p l hf
    have hp : p ∈ pats.filter (fun p =>
        strIncludes p.type "TRIANGLE" || strIncludes p.type "FLAG") := by
      rw [hf]
      exact List.mem_cons_self p l
    exact hconf p (List.mem_of_mem_filter hp)
  cases bh with
  | true =>
    refine ⟨fun _ => ?_, by simp⟩
    simp only [breakoutAcc]
    cases hfil : pats.filter (fun p =>
        strIncludes p.type "TRIANGLE" || strIncludes p.type "FLAG") with
    | nil =>
      by_cases hvol : oGt ind.volumeRatio (3/2) = true <;> simp [hvol] <;> norm_num
    | cons p l =>
      have hp := hmem p l hfil
      by_cases hvol : oGt ind.volumeRatio (3/2) = true
      all_goals simp [hvol]
      all_goals norm_num
      all_goals linarith [hp.1]
  | false =>
    refine ⟨by simp, fun _ => ?_⟩
    simp only [breakoutAcc]
    cases hfil : pats.filter (fun p =>
        strIncludes p.type "TRIANGLE" || strIncludes p.type "FLAG") with
    | nil =>
      by_cases hvol : oGt ind.volumeRatio (3/2) = true <;> simp [hvol] <;> norm_num
    | cons p l =>
      have hp := hmem p l hfil
      by_cases hvol : oGt ind.volumeRatio (3/2) = true
      all_goals simp [hvol]
      all_goals norm_num
      all_goals linarith [hp.2]

/-- Stop placement of a trend-following setup: below the entry for `LONG`,
above it for `SHORT`, given a positive last close and a nonnegative
(possibly absent) ATR. -/
theorem trendSetupOf_sides (candles : List Candle) (ind : IndicatorSnapshot)
    (sig : List String) (sc : ℚ) (now : ℤ)
    (hprice : 0 < lastClose candles)
    (hatr : ∀ a, ind.atr = some a → 0 ≤ a) :
    ((trendSetupOf candles ind sig sc now).direction = "LONG" →
      (trendSetupOf candles ind sig sc now).stopLoss < (trendSetupOf candles ind sig sc now).entry) ∧
    ((trendSetupOf candles ind sig sc now).direction = "SHORT" →
      (trendSetupOf candles ind sig sc now).entry < (trendSetupOf candles ind sig sc now).stopLoss) := by
  have hatr' : 0 < jsOr ind.atr (lastClose candles * (2/100)) := by
    cases hia : ind.atr with
    | none =>
      simp only [jsOr]
      linarith
    | some a =>
      have ha := hatr a hia
      simp only [jsOr]
      split
      · linarith
      · rcases lt_or_eq_of_le ha with h | h
        · exact h
        · rename_i hne
          exact absurd h.symm hne
  by_cases hsc : 0 < sc
  · have hdir : (trendSetupOf candles ind sig sc now).direction = "LONG" := by
      simp [trendSetupOf, hsc]
    have hstop : (trendSetupOf candles ind sig sc now).stopLoss
        = lastClose candles - jsOr ind.atr (lastClose candles * (2/100)) * 2 := by
      simp [trendSetupOf, hsc]
    have hentry : (trendSetupOf candles ind sig sc now).entry = lastClose candles := by
      simp [trendSetupOf]
    constructor
    · intro _
      rw [hstop, hentry]
      linarith
    · intro hd
      rw [hdir] at hd
      exact absurd hd (by simp)
  · have hdir : (trendSetupOf candles ind sig sc now).direction = "SHORT" := by
      simp [trendSetupOf, hsc]
    have hstop : (trendSetupOf candles ind sig sc now).stopLoss
        = lastClose candles + jsOr ind.atr (lastClose candles * (2/100)) * 2 := by
      simp [trendSetupOf, hsc]
    have hentry : (trendSetupOf candles ind sig sc now).entry = lastClose candles := by
      simp [trendSetupOf]
    constructor
    · intro hd
      rw [hdir] at hd
      exact absurd hd (by simp)
    · intro _
      rw [hstop, hentry]
      linarith

/-- Stop placement of a mean-reversion setup (`±1.5%` of a positive
price). -/
theorem meanRevSetupOf_sides (price : ℚ) (ind : IndicatorSnapshot)
    (sig : List String) (sc : ℚ) (now : ℤ) (hp : 0 < price) :
    ((meanRevSetupOf price ind sig sc now).direction = "LONG" →
      (meanRevSetupOf price ind sig sc now).stopLoss < (meanRevSetupOf price ind sig sc now).entry) ∧
    ((meanRevSetupOf price ind sig sc now).direction = "SHORT" →
      (meanRevSetupOf price ind sig sc now).entry < (meanRevSetupOf price ind sig sc now).stopLoss) := by
  by_cases hsc : 0 < sc
  · have hdir : (meanRevSetupOf price ind sig sc now).direction = "LONG" := by
      simp [meanRevSetupOf, hsc]
    have hstop : (meanRevSetupOf price ind sig sc now).stopLoss = price - price * (15/1000) := by
      simp [meanRevSetupOf, hsc]
    have hentry : (meanRevSetupOf price ind sig sc now).entry = price := by
      simp [meanRevSetupOf]
    constructor
    · intro _
      rw [hstop, hentry]
      linarith
    · intro hd
      rw [hdir] at hd
      exact absurd hd (by simp)
  · have hdir : (meanRevSetupOf price ind sig sc now).direction = "SHORT" := by
      simp [meanRevSetupOf, hsc]
    have hstop : (meanRevSetupOf price ind sig sc now).stopLoss = price + price * (15/1000) := by
      simp [meanRevSetupOf, hsc]
    have hentry : (meanRevSetupOf price ind sig sc now).entry = price := by
      simp [meanRevSetupOf]
    constructor
    · intro hd
      rw [hdir] at hd
      exact absurd hd (by simp)
    · intro _
      rw [hstop, hentry]
      linarith

/-- Stop placement of a pattern setup is vacuous for `LONG`/`SHORT`: its
direction is the pattern's own (`BULLISH`/`BEARISH`/`NEUTRAL`). -/
theorem patternSetupOf_sides (bp : Pattern) (ind : IndicatorSnapshot)
    (sig : List String) (conf : ℚ) (now : ℤ)
    (hdir : bp.direction = "BULLISH" ∨ bp.direction = "BEARISH" ∨ bp.direction = "NEUTRAL") :
    ((patternSetupOf bp ind sig conf now).direction = "LONG" →
      (patternSetupOf bp ind sig conf now).stopLoss < (patternSetupOf bp ind sig conf now).entry) ∧
    ((patternSetupOf bp ind sig conf now).direction = "SHORT" →
      (patternSetupOf bp ind sig conf now).entry < (patternSetupOf bp ind sig conf now).stopLoss) := by
  have hd : (patternSetupOf bp ind sig conf now).direction = bp.direction := rfl
  constructor <;> intro h <;> rw [hd] at h <;>
    rcases hdir with h' | h' | h' <;> rw [h'] at h <;> exact absurd h (by simp)

/-- Stop placement of a divergence setup (`±2%` of a positive price). -/
theorem divergenceSetupOf_sides (p : ℚ) (d : Divergence) (now : ℤ) (hp : 0 < p) :
    ((divergenceSetupOf p d now).direction = "LONG" →
      (divergenceSetupOf p d now).stopLoss < (divergenceSetupOf p d now).entry) ∧
    ((divergenceSetupOf p d now).direction = "SHORT" →
      (divergenceSetupOf p d now).entry < (divergenceSetupOf p d now).stopLoss) := by
  by_cases ht : d.type = "BULLISH"
  · have hdir : (divergenceSetupOf p d now).direction = "LONG" := by
      simp [divergenceSetupOf, ht]
    have hstop : (divergenceSetupOf p d now).stopLoss = p * (98/100) := by
      simp [divergenceSetupOf, ht]
    have hentry : (divergenceSetupOf p d now).entry = p := rfl
    constructor
    · intro _
      rw [hstop, hentry]
      linarith
    · intro hd
      rw [hdir] at hd
      exact absurd hd (by simp)
  · have hdir : (divergenceSetupOf p d now).direction = "SHORT" := by
      simp [divergenceSetupOf, ht]
    have hstop : (divergenceSetupOf p d now).stopLoss = p * (102/100) := by
      simp [divergenceSetupOf, ht]
    have hentry : (divergenceSetupOf p d now).entry = p := rfl
    constructor
    · intro hd
      rw [hdir] at hd
      exact absurd hd (by simp)
    · intro _
      rw [hstop, hentry]
      linarith

/-- Stop placement of a breakout setup whose score sign matches the broken
side: `LONG` stops just under the broken (positive) high, below the entry;
`SHORT` stops just over the broken (positive) low, above the entry. -/
theorem breakoutSetupOf_sides (cp rh rl : ℚ) (sig : List String) (sc : ℚ) (now : ℤ)
    (hrh : 0 < rh) (hrl : 0 < rl)
    (hbr : (0 < sc ∧ rh * (1001/1000) < cp) ∨ (sc < 0 ∧ cp < rl * (999/1000))) :
    ((breakoutSetupOf cp rh rl sig sc now).direction = "LONG" →
      (breakoutSetupOf cp rh rl sig sc now).stopLoss < (breakoutSetupOf cp rh rl sig sc now).entry) ∧
    ((breakoutSetupOf cp rh rl sig sc now).direction = "SHORT" →
      (breakoutSetupOf cp rh rl sig sc now).entry < (breakoutSetupOf cp rh rl sig sc now).stopLoss) := by
  have hentry : (breakoutSetupOf cp rh rl sig sc now).entry = cp := rfl
  rcases hbr with ⟨hsc, hlt⟩ | ⟨hsc, hlt⟩
  · have hdir : (breakoutSetupOf cp rh rl sig sc now).direction = "LONG" := by
      simp [breakoutSetupOf, hsc]
    have hstop : (breakoutSetupOf cp rh rl sig sc now).stopLoss = rh * (995/1000) := by
      simp [breakoutSetupOf, hsc]
    constructor
    · intro _
      rw [hstop, hentry]
      nlinarith
    · intro hd
      rw [hdir] at hd
      exact absurd hd (by simp)
  · have hsc' : ¬ 0 < sc := by linarith
    have hdir : (breakoutSetupOf cp rh rl sig sc now).direction = "SHORT" := by
      simp [breakoutSetupOf, hsc']
    have hstop : (breakoutSetupOf cp rh rl sig sc now).stopLoss = rl * (1005/1000) := by
      simp [breakoutSetupOf, hsc']
    constructor
    · intro hd
      rw [hdir] at hd
      exact absurd hd (by simp)
    · intro _
      rw [hstop, hentry]
      nlinarith

/-! ## Theorems: strategy confidence caps (C8) and stop placement (C1) -/

/-- C8 amended: the mean-reversion, breakout and pattern-trade strategies
clamp emitted confidence to at most `0.95` (`Math.min(0.95, …)`), and the
divergence strategy emits the fixed strength `0.8 ≤ 0.95`; the
trend-following strategy applies no `0.95` clamp — its confidence is
`|score| / maxScore`, which for prediction confidences in `[0, 1]` is
bounded by `1` and can reach `1`. -/
theorem strategy_confidence_caps :
    (∀ price ind pats now s, detectMeanReversion price ind pats now = some s →
      s.confidence ≤ 19/20) ∧
    (∀ candles ind pats now s, detectBreakout candles ind pats now = some s →
      s.confidence ≤ 19/20) ∧
    (∀ pats ind pred now s, detectPatternTrade pats ind pred now = some s →
      s.confidence ≤ 19/20) ∧
    (∀ candles inds now s, detectDivergenceTrade candles inds now = some s →
      s.confidence ≤ 19/20) ∧
    (∀ candles ind pred regime now s,
      (∀ p, pred = some p → 0 ≤ p.confidence ∧ p.confidence ≤ 1) →
      detectTrendFollowing candles ind pred regime now = some s → s.confidence ≤ 1) := by
  refine ⟨?_, ?_, ?_, ?_, ?_⟩
  · intro price ind pats now s h
    rcases detectMeanReversion_some h with h' | h' <;>
      (rw [h']; exact min_le_left _ _)
  · intro candles ind pats now s h
    obtain ⟨bh, hs, _⟩ := detectBreakout_some h
    rw [hs]
    exact min_le_left _ _
  · intro pats ind pred now s h
    obtain ⟨p0, rest, _, hs⟩ := detectPatternTrade_some h
    rw [hs]
    exact min_le_left _ _
  · intro candles inds now s h
    obtain ⟨d, hd, hs⟩ := detectDivergenceTrade_some h
    have hstr := detectDivergence_strength hd
    rw [hs]
    have hc : (divergenceSetupOf (lastClose candles) d now).confidence = d.strength := rfl
    rw [hc, hstr]
    norm_num
  · intro candles ind pred regime now s hpred h
    rw [detectTrendFollowing_some h]
    show |(trendAcc ind pred regime).2| / trendMaxScore ≤ 1
    exact div_le_one_of_le₀ (trendAcc_bound ind pred regime hpred)
      (by unfold trendMaxScore; norm_num)

/-- Indicator snapshot used by the mean-reversion witness and by the C1
counterexample: oversold RSI, price at the lower Bollinger band, and a
Bollinger middle *below* the current price. -/
def indMR : IndicatorSnapshot :=
  { emptySnapshot with
    price := 100
    rsi := some 20
    bollingerBand := some (1/20)
    bollingerMiddle := some 90 }

/-- The setup `detectMeanReversion` emits on `indMR` at price `100`. -/
def mrSetupW : TradeSetup :=
  meanRevSetupOf 100 indMR ["RSI Oversold", "At Lower BB"] (5/2) 0

/-- Witness for C8 amended: a concretely emitted mean-reversion setup,
whose confidence the theorem bounds by `0.95`. -/
theorem strategy_confidence_caps_witness :
    detectMeanReversion 100 indMR [] 0 = some mrSetupW ∧
    mrSetupW.confidence ≤ 19/20 := by
  have heval : detectMeanReversion 100 indMR [] 0 = some mrSetupW := by
    norm_num [detectMeanReversion, meanRevBody, meanRevAcc, meanRevSetupOf, mrSetupW,
      minConfidence, oLt, indMR, emptySnapshot, abs_of_pos]
  exact ⟨heval, strategy_confidence_caps.1 100 indMR [] 0 mrSetupW heval⟩

/-- Candle used by the detector counterexamples. -/
def candleB : Candle := ⟨0, 100, 200, 50, 100, 1⟩

/-- Fully aligned bullish snapshot for the trend-following
counterexample. -/
def indTF : IndicatorSnapshot :=
  { emptySnapshot with
    price := 100
    ema9 := some 3
    ema20 := some 2
    ema50 := some 1
    macd := some 2
    macdSignal := some 1
    atr := some 1 }

/-- A maximal-confidence LONG prediction. -/
def predTF : Prediction := { confidence := 1, direction := "LONG" }

/-- C8 counterexample: with a trending regime, aligned EMAs, agreeing
MACD and a prediction of confidence `1`, `detectTrendFollowing` emits a
setup with confidence exactly `1 > 0.95` — the claimed `0.95` clamp does
not exist in this strategy. -/
theorem trend_confidence_reaches_one :
    ((detectTrendFollowing [candleB] indTF (some predTF) ⟨"BULLISH_TRENDING"⟩ 0).map
      (fun s => s.confidence)) = some 1 ∧ ¬ ((1 : ℚ) ≤ 19/20) := by
  constructor
  · norm_num [detectTrendFollowing, trendAcc, trendMACDStep, trendPredictionStep,
      trendMAStep, trendRegimeStep, trendSetupOf, trendMaxScore, minConfidence,
      truthy, indTF, predTF, emptySnapshot, jsOr, lastClose, candleB, abs_of_pos]
  · norm_num

/-- C1 amended: under the data-model hypotheses (nonempty candles with
positive prices, a nonnegative ATR when present, pattern directions in
`{BULLISH, BEARISH, NEUTRAL}` with confidences in `[0, 1]`), every setup
emitted by `analyzeMarket` has its *stop* on the correct side of the
entry: `stopLoss < entry` for `LONG`, `stopLoss > entry` for `SHORT`.
The take-profit ordering of the original claim does not hold (see the
counterexample: a mean-reversion LONG setup takes the Bollinger middle as
target, which can lie below the entry). -/
theorem analyzeMarket_stop_side (candles : List Candle) (inds : List IndicatorSnapshot)
    (pats : List Pattern) (pred : Option Prediction) (regime : Regime) (now : ℤ)
    (hne : candles ≠ [])
    (hpos : ∀ c ∈ candles, 0 < c.high ∧ 0 < c.low ∧ 0 < c.close)
    (hatr : ∀ a, ((inds.getLast?).getD emptySnapshot).atr = some a → 0 ≤ a)
    (hpat : ∀ p ∈ pats, (p.direction = "BULLISH" ∨ p.direction = "BEARISH" ∨
      p.direction = "NEUTRAL") ∧ 0 ≤ p.confidence ∧ p.confidence ≤ 1) :
    ∀ s ∈ analyzeMarket candles inds pats pred regime now,
      (s.direction = "LONG" → s.stopLoss < s.entry) ∧
      (s.direction = "SHORT" → s.entry < s.stopLoss) := by
  intro s hs
  have hprice : 0 < lastClose candles :=
    lastClose_pos hne (fun c hc => (hpos c hc).2.2)
  rcases analyzeMarket_mem hs with h | h | h | h | h
  · rw [detectTrendFollowing_some h]
    exact trendSetupOf_sides _ _ _ _ _ hprice hatr
  · rcases detectMeanReversion_some h with h' | h' <;>
      (rw [h']; exact meanRevSetupOf_sides _ _ _ _ _ hprice)
  · obtain ⟨bh, hs', hbr⟩ := detectBreakout_some h
    have hlen0 : candles.length ≠ 0 := fun h0 => hne (List.length_eq_zero.mp h0)
    have hdropne : (candles.drop (candles.length - 20)).map (fun c => c.high) ≠ [] := by
      intro hnil
      have hl := congrArg List.length hnil
      simp [List.length_drop] at hl
      omega
    have hdropne' : (candles.drop (candles.length - 20)).map (fun c => c.low) ≠ [] := by
      intro hnil
      have hl := congrArg List.length hnil
      simp [List.length_drop] at hl
      omega
    have hrh : 0 < jsMax ((candles.drop (candles.length - 20)).map (fun c => c.high)) := by
      rcases List.mem_map.mp (jsMax_mem hdropne) with ⟨c, hc, hceq⟩
      rw [← hceq]
      exact (hpos c (List.mem_of_mem_drop hc)).1
    have hrl : 0 < jsMin ((candles.drop (candles.length - 20)).map (fun c => c.low)) := by
      rcases List.mem_map.mp (jsMin_mem hdropne') with ⟨c, hc, hceq⟩
      rw [← hceq]
      exact (hpos c (List.mem_of_mem_drop hc)).2.1
    have hsign := breakoutAcc_sign ((inds.getLast?).getD emptySnapshot) pats bh
      (fun p hp => (hpat p hp).2)
    rw [hs']
    apply breakoutSetupOf_sides _ _ _ _ _ _ hrh hrl
    rcases hbr with ⟨hbh, hlt⟩ | ⟨hbh, hlt⟩
    · exact Or.inl ⟨hsign.1 hbh, hlt⟩
    · exact Or.inr ⟨hsign.2 hbh, hlt⟩
  · obtain ⟨p0, rest, hpp, hs'⟩ := detectPatternTrade_some h
    rw [hs']
    apply patternSetupOf_sides
    refine (hpat (bestPatternOf p0 rest) ?_).1
    rw [hpp]
    exact bestPatternOf_mem p0 rest
  · obtain ⟨d, hd, hs'⟩ := detectDivergenceTrade_some h
    rw [hs']
    exact divergenceSetupOf_sides _ _ _ hprice

/-- Concrete evaluation shared by several witnesses: on a single candle
at close `100`, the oversold snapshot `indMR`, no patterns and no
prediction, `analyzeMarket` emits exactly the one mean-reversion setup
`mrSetupW`. -/
theorem analyzeMarket_eval :
    analyzeMarket [candleB] [indMR] [] none ⟨"RANGING"⟩ 0 = [mrSetupW] := by
  norm_num [analyzeMarket, detectTrendFollowing, trendAcc, trendMACDStep,
    trendPredictionStep, trendMAStep, trendRegimeStep, trendMaxScore,
    detectMeanReversion, meanRevBody, meanRevAcc, meanRevSetupOf, mrSetupW,
    detectBreakout, detectPatternTrade, detectDivergenceTrade,
    minConfidence, oLt, oGt, truthy, jsOr, jsMax, jsMin, lastClose,
    pushOpt, candleB, indMR, emptySnapshot, abs_of_pos,
    (by decide : ¬ (("RANGING" : String) = "BULLISH_TRENDING")),
    (by decide : ¬ (("RANGING" : String) = "BEARISH_TRENDING"))]

/-- C1 counterexample: on a single candle at close `100`, an oversold
snapshot whose Bollinger middle is `90`, no patterns and no prediction,
`analyzeMarket` emits exactly one setup — a `LONG` mean-reversion setup
with entry `100` and take-profit `90 < 100`: the take-profit lies on the
wrong side of the entry for a `LONG`. -/
theorem analyzeMarket_long_target_below_entry :
    ((analyzeMarket [candleB] [indMR] [] none ⟨"RANGING"⟩ 0).map
      (fun s => (s.direction, s.entry, s.takeProfit))) = [("LONG", (100 : ℚ), (90 : ℚ))] ∧
    ((90 : ℚ) < 100) := by
  constructor
  · rw [analyzeMarket_eval]
    norm_num [mrSetupW, meanRevSetupOf, indMR, emptySnapshot, jsOr]
  · norm_num

/-- Witness for C1 amended at the concrete mean-reversion emission: the
emitted LONG setup's stop (`98.5`) is below its entry (`100`). -/
theorem analyzeMarket_stop_side_witness :
    mrSetupW.stopLoss < mrSetupW.entry := by
  have hmem : mrSetupW ∈ analyzeMarket [candleB] [indMR] [] none ⟨"RANGING"⟩ 0 := by
    rw [analyzeMarket_eval]
    exact List.mem_singleton.mpr rfl
  have hside := analyzeMarket_stop_side [candleB] [indMR] [] none ⟨"RANGING"⟩ 0
    (by simp)
    (by
      intro c hc
      simp only [List.mem_singleton] at hc
      subst hc
      norm_num [candleB])
    (by
      intro a ha
      simp [indMR, emptySnapshot] at ha)
    (by simp)
    mrSetupW hmem
  exact hside.1 (by norm_num [mrSetupW, meanRevSetupOf])

/-- Witness for C2 at the same concrete emission: the one returned setup
clears the `0.60` threshold and the returned list is sorted. -/
theorem analyzeMarket_filtered_and_sorted_witness :
    (3/5 : ℚ) ≤ mrSetupW.confidence ∧
    List.Sorted confDesc [mrSetupW] :=
  ⟨(analyzeMarket_filtered_and_sorted [candleB] [indMR] [] none ⟨"RANGING"⟩ 0).1
      mrSetupW (by rw [analyzeMarket_eval]; exact List.mem_singleton.mpr rfl),
    analyzeMarket_eval ▸
      (analyzeMarket_filtered_and_sorted [candleB] [indMR] [] none ⟨"RANGING"⟩ 0).2⟩

end Dashboard
